import Mathlib

/-!
Verification of the forward-pass recurrences implemented in `LSTM.ipynb`:
the plain LSTM forward (`lstm_forward`), the generalized projected LSTM
forward (`lstm_forward_proj`, the notebook's second `lstm_forward`), and
the GRU forward (`gru_forward`).

The notebook's tensors are modelled by a shallow embedding: a tensor is a
shape (list of dimension sizes) together with a multi-index valuation into
the reals.  The torch operations actually used by the notebook (`bmm`,
`squeeze`, `unsqueeze`, `tile`, `reshape`, broadcasting arithmetic,
column slicing and slice assignment) are embedded with their dynamic-shape
semantics; shape errors are modelled by `Option`.
-/

/-- A tensor: a shape together with a row-major multi-index valuation.
Only indices that are pointwise below the shape are meaningful. -/
structure Tensor where
  shape : List ℕ
  data : List ℕ → ℝ

/-- Row-major flat index of a multi-index with respect to a shape. -/
def toFlat : List ℕ → List ℕ → ℕ
  | [], _ => 0
  | _ :: ds, [] => toFlat ds []
  | _ :: ds, i :: is => i * ds.prod + toFlat ds is

/-- Multi-index of a row-major flat index with respect to a shape. -/
def ofFlat : List ℕ → ℕ → List ℕ
  | [], _ => []
  | _ :: ds, k => k / ds.prod :: ofFlat ds (k % ds.prod)

/-- Re-insert the coordinates removed by `squeeze`: every size-1 dimension
gets coordinate 0, the remaining coordinates are taken in order. -/
def insIdx : List ℕ → List ℕ → List ℕ
  | [], _ => []
  | d :: ds, is => if d = 1 then 0 :: insIdx ds is else is.headD 0 :: insIdx ds is.tail

/-- Map a multi-index of a broadcast result to a multi-index of an operand
with shape `s`: dimensions are aligned from the trailing side, and size-1
operand dimensions are clamped to coordinate 0. -/
def alignIdx (s idx : List ℕ) : List ℕ :=
  if s.length ≤ idx.length then
    List.zipWith (fun d i => if d = 1 then 0 else i) s (idx.drop (idx.length - s.length))
  else
    List.replicate (s.length - idx.length) 0 ++
      List.zipWith (fun d i => if d = 1 then 0 else i) (s.drop (s.length - idx.length)) idx

/-- Combine two dimension sizes under broadcasting. -/
def combineDim (d1 d2 : ℕ) : Option ℕ :=
  if d1 = d2 then some d1 else if d1 = 1 then some d2 else if d2 = 1 then some d1 else none

/-- Broadcast two shapes given in reversed (trailing-first) order. -/
def bshapeR : List ℕ → List ℕ → Option (List ℕ)
  | [], s2 => some s2
  | s1, [] => some s1
  | d1 :: s1, d2 :: s2 => do
    let d ← combineDim d1 d2
    let r ← bshapeR s1 s2
    pure (d :: r)

/-- Broadcast two shapes (torch broadcasting semantics). -/
def bshape (s1 s2 : List ℕ) : Option (List ℕ) :=
  (bshapeR s1.reverse s2.reverse).map List.reverse

/-- Compatibility of a value shape with a destination shape for slice
assignment, both given in reversed (trailing-first) order: trailing
dimensions must match or be 1 in the value, and any extra leading value
dimensions must be 1. -/
def setCompat : List ℕ → List ℕ → Bool
  | [], _ => true
  | d :: vs, [] => d == 1 && setCompat vs []
  | d :: vs, e :: ds => (d == e || d == 1) && setCompat vs ds

/-- `torch.zeros(s)`. -/
def zerosT (s : List ℕ) : Tensor := ⟨s, fun _ => 0⟩

/-- Element-wise map (e.g. `torch.sigmoid`, `torch.tanh`, `1 - t`). -/
def Tensor.map (f : ℝ → ℝ) (t : Tensor) : Tensor :=
  ⟨t.shape, fun idx => f (t.data idx)⟩

/-- `t.unsqueeze(0)`. -/
def Tensor.unsqueeze0 (t : Tensor) : Tensor :=
  ⟨1 :: t.shape, fun idx => t.data idx.tail⟩

/-- `t.unsqueeze(-1)`. -/
def Tensor.unsqueezeLast (t : Tensor) : Tensor :=
  ⟨t.shape ++ [1], fun idx => t.data idx.dropLast⟩

/-- `t.squeeze()`: remove every size-1 dimension. -/
def Tensor.squeeze (t : Tensor) : Tensor :=
  ⟨t.shape.filter (· ≠ 1), fun idx => t.data (insIdx t.shape idx)⟩

/-- `t.reshape(s)`: requires an equal element count; row-major layout. -/
def Tensor.reshape (t : Tensor) (s : List ℕ) : Option Tensor :=
  if t.shape.prod = s.prod then
    some ⟨s, fun idx => t.data (ofFlat t.shape (toFlat s idx))⟩
  else none

/-- `t.tile(r0, r1, r2)` on a rank-3 tensor. -/
def tile3 (t : Tensor) (r0 r1 r2 : ℕ) : Option Tensor :=
  match t.shape with
  | [d0, d1, d2] =>
    some ⟨[r0 * d0, r1 * d1, r2 * d2],
      fun idx => t.data [idx.getD 0 0 % d0, idx.getD 1 0 % d1, idx.getD 2 0 % d2]⟩
  | _ => none

/-- `torch.bmm`: batched matrix multiplication of rank-3 tensors. -/
noncomputable def bmm (a b : Tensor) : Option Tensor :=
  match a.shape, b.shape with
  | [n, p, q], [n', q', r] =>
    if n = n' ∧ q = q' then
      some ⟨[n, p, r], fun idx =>
        ∑ l ∈ Finset.range q,
          a.data [idx.getD 0 0, idx.getD 1 0, l] * b.data [idx.getD 0 0, l, idx.getD 2 0]⟩
    else none
  | _, _ => none

/-- Element-wise binary operation with torch broadcasting. -/
def ewise (f : ℝ → ℝ → ℝ) (a b : Tensor) : Option Tensor :=
  (bshape a.shape b.shape).map fun s =>
    ⟨s, fun idx => f (a.data (alignIdx a.shape idx)) (b.data (alignIdx b.shape idx))⟩

/-- Broadcasting element-wise addition. -/
noncomputable def Tensor.add (a b : Tensor) : Option Tensor := ewise (· + ·) a b

/-- Broadcasting element-wise (Hadamard) multiplication. -/
noncomputable def Tensor.mul (a b : Tensor) : Option Tensor := ewise (· * ·) a b

/-- `t[:, i, :]` on a rank-3 tensor. -/
def sliceTime (t : Tensor) (i : ℕ) : Option Tensor :=
  match t.shape with
  | [b, _, c] => some ⟨[b, c], fun idx => t.data [idx.getD 0 0, i, idx.getD 1 0]⟩
  | _ => none

/-- `t[:, lo:hi]`: requires at least two dimensions (a 1-D tensor raises). -/
def sliceCols (t : Tensor) (lo hi : ℕ) : Option Tensor :=
  match t.shape with
  | d0 :: d1 :: rest =>
    some ⟨d0 :: (min hi d1 - lo) :: rest,
      fun idx => t.data (idx.headD 0 :: (lo + idx.tail.headD 0) :: idx.tail.tail)⟩
  | _ => none

/-- `t[:, lo:]`: requires at least two dimensions. -/
def sliceColsFrom (t : Tensor) (lo : ℕ) : Option Tensor :=
  match t.shape with
  | d0 :: d1 :: rest =>
    some ⟨d0 :: (d1 - lo) :: rest,
      fun idx => t.data (idx.headD 0 :: (lo + idx.tail.headD 0) :: idx.tail.tail)⟩
  | _ => none

/-- `t[:hi]`: slice along the first dimension. -/
def sliceFst (t : Tensor) (hi : ℕ) : Option Tensor :=
  match t.shape with
  | d0 :: rest => some ⟨min hi d0 :: rest, t.data⟩
  | _ => none

/-- `t[lo:]`: slice along the first dimension. -/
def sliceFstFrom (t : Tensor) (lo : ℕ) : Option Tensor :=
  match t.shape with
  | d0 :: rest => some ⟨(d0 - lo) :: rest, fun idx => t.data ((lo + idx.headD 0) :: idx.tail)⟩
  | _ => none

/-- `out[:, t, :] = v` on a rank-3 destination: the value is broadcast to
the indexed `(batch, cols)` view; extra leading value dimensions must be 1. -/
def setTime (out : Tensor) (t : ℕ) (v : Tensor) : Option Tensor :=
  match out.shape with
  | [b, n, c] =>
    if setCompat v.shape.reverse [b, c].reverse then
      some ⟨[b, n, c], fun idx =>
        if idx.tail.headD 0 = t then v.data (alignIdx v.shape [idx.headD 0, idx.tail.tail.headD 0])
        else out.data idx⟩
    else none
  | _ => none

/-- The logistic sigmoid, `torch.sigmoid`. -/
noncomputable def sigmoid (x : ℝ) : ℝ := 1 / (1 + Real.exp (-x))

/-- Loop body of the plain `lstm_forward` (one time step `t`).  Each bind
mirrors one line of the notebook loop; the gate activations `i_t`, `f_t`,
`g_t`, `o_t` are the `map sigmoid` / `map Real.tanh` applications. -/
noncomputable def lstmStep (dataT b_ih b_hh batch_w_ih batch_w_hh : Tensor) (bs h_size : ℕ)
    (s : Tensor × Tensor × Tensor) (t : ℕ) : Option (Tensor × Tensor × Tensor) :=
  match s with
  | (output_h, prev_h, prev_c) =>
    Option.bind (sliceTime dataT t) fun x =>
    Option.bind (bmm batch_w_ih x.unsqueezeLast) fun w_times_x =>
    Option.bind (prev_h.reshape [bs, h_size]) fun ph1 =>
    Option.bind (bmm batch_w_hh ph1.unsqueezeLast) fun w_times_prev_h =>
    Option.bind (w_times_x.squeeze.add b_ih) fun s1 =>
    Option.bind (s1.add w_times_prev_h.squeeze) fun s2 =>
    Option.bind (s2.add b_hh) fun all_before_activating =>
    Option.bind (sliceCols all_before_activating 0 h_size) fun i0 =>
    Option.bind (sliceCols all_before_activating h_size (2 * h_size)) fun f0 =>
    Option.bind (sliceCols all_before_activating (2 * h_size) (3 * h_size)) fun g0 =>
    Option.bind (sliceColsFrom all_before_activating (3 * h_size)) fun o0 =>
    Option.bind ((f0.map sigmoid).mul prev_c) fun m1 =>
    Option.bind ((i0.map sigmoid).mul (g0.map Real.tanh)) fun m2 =>
    Option.bind (m1.add m2) fun prev_c2 =>
    Option.bind ((o0.map sigmoid).mul (prev_c2.map Real.tanh)) fun prev_h2 =>
    Option.bind (setTime output_h t prev_h2) fun output_h2 =>
    some (output_h2, prev_h2, prev_c2)

/-- The notebook's first `lstm_forward` (plain LSTM forward pass). -/
noncomputable def lstm_forward (dataT : Tensor) (initial_states : Tensor × Tensor)
    (w_ih w_hh b_ih b_hh : Tensor) : Option (Tensor × (Tensor × Tensor)) :=
  match dataT.shape with
  | [bs, T, _] => do
    let h0 := initial_states.1
    let c0 := initial_states.2
    let h_size := w_ih.shape.headD 0 / 4
    let batch_w_ih ← tile3 w_ih.unsqueeze0 bs 1 1
    let batch_w_hh ← tile3 w_hh.unsqueeze0 bs 1 1
    let output_h := zerosT [bs, T, h_size]
    let r ← (List.range T).foldlM
      (lstmStep dataT b_ih b_hh batch_w_ih batch_w_hh bs h_size) (output_h, h0, c0)
    pure (r.1, (r.2.1, r.2.2))
  | _ => none

/-- Loop body of the generalized (projected) `lstm_forward`.  `pInfo`
carries `(p_size, batch_w_hr)` when a projection weight was supplied; when
it is absent the reference to the unbound `p_size` fails, exactly as the
notebook's `NameError` would. -/
noncomputable def lstmProjStep (dataT b_ih b_hh batch_w_ih batch_w_hh : Tensor)
    (bs h_size : ℕ) (pInfo : Option (ℕ × Tensor))
    (s : Tensor × Tensor × Tensor) (t : ℕ) : Option (Tensor × Tensor × Tensor) :=
  match s with
  | (output_h, prev_h, prev_c) =>
    Option.bind (sliceTime dataT t) fun x =>
    Option.bind (bmm batch_w_ih x.unsqueezeLast) fun w_times_x =>
    Option.bind (pInfo.map Prod.fst) fun p_size =>
    Option.bind (prev_h.reshape [bs, p_size]) fun ph1 =>
    Option.bind (bmm batch_w_hh ph1.unsqueezeLast) fun w_times_prev_h =>
    Option.bind (w_times_x.squeeze.add b_ih) fun s1 =>
    Option.bind (s1.add w_times_prev_h.squeeze) fun s2 =>
    Option.bind (s2.add b_hh) fun all_before_activating =>
    Option.bind (sliceCols all_before_activating 0 h_size) fun i0 =>
    Option.bind (sliceCols all_before_activating h_size (2 * h_size)) fun f0 =>
    Option.bind (sliceCols all_before_activating (2 * h_size) (3 * h_size)) fun g0 =>
    Option.bind (sliceColsFrom all_before_activating (3 * h_size)) fun o0 =>
    Option.bind ((f0.map sigmoid).mul prev_c) fun m1 =>
    Option.bind ((i0.map sigmoid).mul (g0.map Real.tanh)) fun m2 =>
    Option.bind (m1.add m2) fun prev_c2 =>
    Option.bind ((o0.map sigmoid).mul (prev_c2.map Real.tanh)) fun prev_h2 =>
    Option.bind (match pInfo with
      | some pb => Option.bind (bmm pb.2 prev_h2.squeeze.unsqueezeLast) fun m =>
          some m.squeeze
      | none => some prev_h2) fun prev_h3 =>
    Option.bind (setTime output_h t prev_h3) fun output_h2 =>
    some (output_h2, prev_h3, prev_c2)

/-- The notebook's second `lstm_forward` (LSTM forward with an optional
output projection `w_hr`). -/
noncomputable def lstm_forward_proj (dataT : Tensor) (initial_states : Tensor × Tensor)
    (w_ih w_hh b_ih b_hh : Tensor) (w_hr : Option Tensor) :
    Option (Tensor × (Tensor × Tensor)) :=
  match dataT.shape with
  | [bs, T, _] => do
    let h0 := initial_states.1
    let c0 := initial_states.2
    let h_size := w_ih.shape.headD 0 / 4
    let batch_w_ih ← tile3 w_ih.unsqueeze0 bs 1 1
    let batch_w_hh ← tile3 w_hh.unsqueeze0 bs 1 1
    let pInfo ← match w_hr with
      | some whr => do
        let bwhr ← tile3 whr.unsqueeze0 bs 1 1
        pure (some (whr.shape.headD 0, bwhr))
      | none => pure (none : Option (ℕ × Tensor))
    let output_size := match pInfo with
      | some pb => pb.1
      | none => h_size
    let output_h := zerosT [bs, T, output_size]
    let r ← (List.range T).foldlM
      (lstmProjStep dataT b_ih b_hh batch_w_ih batch_w_hh bs h_size pInfo) (output_h, h0, c0)
    let phr ← r.2.1.reshape [1, bs, output_size]
    pure (r.1, (phr, r.2.2))
  | _ => none

/-- Loop body of `gru_forward` (one time step `t`).  Each bind mirrors one
line of the notebook loop; `r_t` and `z_t` are the `map sigmoid`
applications, `n_t` the `map Real.tanh` application, and `1 - z_t` the
`map (fun v => 1 - v)` application. -/
noncomputable def gruStep (dataT b_ih b_hh batch_w_ih batch_w_hh : Tensor) (bs h_size : ℕ)
    (s : Tensor × Tensor) (t : ℕ) : Option (Tensor × Tensor) :=
  match s with
  | (output_h, prev_h) =>
    Option.bind (sliceTime dataT t) fun x =>
    Option.bind (bmm batch_w_ih x.unsqueezeLast) fun w_times_x =>
    Option.bind (prev_h.reshape [bs, h_size]) fun ph1 =>
    Option.bind (bmm batch_w_hh ph1.unsqueezeLast) fun w_times_prev_h =>
    Option.bind (sliceCols w_times_x.squeeze 0 (2 * h_size)) fun wxs =>
    Option.bind (sliceFst b_ih (2 * h_size)) fun bi1 =>
    Option.bind (sliceCols w_times_prev_h.squeeze 0 (2 * h_size)) fun whs =>
    Option.bind (sliceFst b_hh (2 * h_size)) fun bh1 =>
    Option.bind (wxs.add bi1) fun a1 =>
    Option.bind (a1.add whs) fun a2 =>
    Option.bind (a2.add bh1) fun r_z_before_activating =>
    Option.bind (sliceCols r_z_before_activating 0 h_size) fun r0 =>
    Option.bind (sliceCols r_z_before_activating h_size (2 * h_size)) fun z0 =>
    Option.bind (sliceColsFrom w_times_x.squeeze (2 * h_size)) fun nx =>
    Option.bind (sliceFstFrom b_ih (2 * h_size)) fun bi2 =>
    Option.bind (sliceColsFrom w_times_prev_h.squeeze (2 * h_size)) fun nh =>
    Option.bind (sliceFstFrom b_hh (2 * h_size)) fun bh2 =>
    Option.bind (nx.add bi2) fun n1 =>
    Option.bind (nh.add bh2) fun n2 =>
    Option.bind ((r0.map sigmoid).mul n2) fun n3 =>
    Option.bind (n1.add n3) fun n4 =>
    Option.bind (((z0.map sigmoid).map (fun v => 1 - v)).mul (n4.map Real.tanh)) fun u1 =>
    Option.bind ((z0.map sigmoid).mul prev_h) fun u2 =>
    Option.bind (u1.add u2) fun prev_h2 =>
    Option.bind (setTime output_h t prev_h2) fun output_h2 =>
    some (output_h2, prev_h2)

/-- The notebook's `gru_forward`. -/
noncomputable def gru_forward (dataT : Tensor) (initial_states : Tensor)
    (w_ih w_hh b_ih b_hh : Tensor) : Option (Tensor × Tensor) :=
  match dataT.shape with
  | [bs, T, _] => do
    let h0 := initial_states
    let h_size := w_ih.shape.headD 0 / 3
    let batch_w_ih ← tile3 w_ih.unsqueeze0 bs 1 1
    let batch_w_hh ← tile3 w_hh.unsqueeze0 bs 1 1
    let output_h := zerosT [bs, T, h_size]
    let r ← (List.range T).foldlM
      (gruStep dataT b_ih b_hh batch_w_ih batch_w_hh bs h_size) (output_h, h0)
    pure (r.1, r.2)
  | _ => none

/-- One step of the LSTM recurrence of §4.1 of the spec, per batch element:
pre-activations, the four gate blocks in order (input, forget, candidate,
output), and the state update. -/
noncomputable def lstmSpecStep (I H : ℕ) (Wih Whh : ℕ → ℕ → ℝ) (bih bhh : ℕ → ℝ)
    (xt : ℕ → ℝ) (hc : (ℕ → ℝ) × (ℕ → ℝ)) : (ℕ → ℝ) × (ℕ → ℝ) :=
  let h := hc.1
  let c := hc.2
  let z : ℕ → ℝ := fun r =>
    (∑ j ∈ Finset.range I, Wih r j * xt j) + bih r +
      (∑ j ∈ Finset.range H, Whh r j * h j) + bhh r
  let i := fun j => sigmoid (z j)
  let f := fun j => sigmoid (z (H + j))
  let g := fun j => Real.tanh (z (2 * H + j))
  let o := fun j => sigmoid (z (3 * H + j))
  let c' := fun j => f j * c j + i j * g j
  let h' := fun j => o j * Real.tanh (c' j)
  (h', c')

/-- The LSTM recurrence of §4.1 of the spec, iterated from the initial
states; index `t` is the state after `t` steps. -/
noncomputable def lstmSpec (I H : ℕ) (Wih Whh : ℕ → ℕ → ℝ) (bih bhh : ℕ → ℝ)
    (x : ℕ → ℕ → ℝ) (h0 c0 : ℕ → ℝ) : ℕ → (ℕ → ℝ) × (ℕ → ℝ)
  | 0 => (h0, c0)
  | t + 1 => lstmSpecStep I H Wih Whh bih bhh (x t) (lstmSpec I H Wih Whh bih bhh x h0 c0 t)

/-- One step of the projected LSTM recurrence of §4.2 of the spec: the
hidden state fed back has dimensionality `P`, the cell state keeps
dimensionality `H`, and the fresh hidden state is projected by `Whr`. -/
noncomputable def lstmProjSpecStep (I H P : ℕ) (Wih Whh : ℕ → ℕ → ℝ) (bih bhh : ℕ → ℝ)
    (Whr : ℕ → ℕ → ℝ) (xt : ℕ → ℝ) (hc : (ℕ → ℝ) × (ℕ → ℝ)) : (ℕ → ℝ) × (ℕ → ℝ) :=
  let h := hc.1
  let c := hc.2
  let z : ℕ → ℝ := fun r =>
    (∑ j ∈ Finset.range I, Wih r j * xt j) + bih r +
      (∑ j ∈ Finset.range P, Whh r j * h j) + bhh r
  let i := fun j => sigmoid (z j)
  let f := fun j => sigmoid (z (H + j))
  let g := fun j => Real.tanh (z (2 * H + j))
  let o := fun j => sigmoid (z (3 * H + j))
  let c' := fun j => f j * c j + i j * g j
  let hcell := fun j => o j * Real.tanh (c' j)
  let h' := fun p => ∑ k ∈ Finset.range H, Whr p k * hcell k
  (h', c')

/-- The projected LSTM recurrence of §4.2 of the spec, iterated from the
initial states. -/
noncomputable def lstmProjSpec (I H P : ℕ) (Wih Whh : ℕ → ℕ → ℝ) (bih bhh : ℕ → ℝ)
    (Whr : ℕ → ℕ → ℝ) (x : ℕ → ℕ → ℝ) (h0 c0 : ℕ → ℝ) : ℕ → (ℕ → ℝ) × (ℕ → ℝ)
  | 0 => (h0, c0)
  | t + 1 => lstmProjSpecStep I H P Wih Whh bih bhh Whr (x t)
      (lstmProjSpec I H P Wih Whh bih bhh Whr x h0 c0 t)

/-- One step of the GRU recurrence of §4.3 of the spec, per batch element:
`p` and `q` pre-activations, reset and update gates from the first two
H-blocks, the candidate with the reset gate applied inside the tanh
argument to the hidden-derived term only, and the convex state update. -/
noncomputable def gruSpecStep (I H : ℕ) (Wih Whh : ℕ → ℕ → ℝ) (bih bhh : ℕ → ℝ)
    (xt : ℕ → ℝ) (h : ℕ → ℝ) : ℕ → ℝ :=
  let p : ℕ → ℝ := fun r => (∑ l ∈ Finset.range I, Wih r l * xt l) + bih r
  let q : ℕ → ℝ := fun r => (∑ l ∈ Finset.range H, Whh r l * h l) + bhh r
  let rg := fun j => sigmoid (p j + q j)
  let zg := fun j => sigmoid (p (H + j) + q (H + j))
  let ng := fun j => Real.tanh (p (2 * H + j) + rg j * q (2 * H + j))
  fun j => (1 - zg j) * ng j + zg j * h j

/-- The GRU recurrence of §4.3 of the spec, iterated from the initial
hidden state. -/
noncomputable def gruSpec (I H : ℕ) (Wih Whh : ℕ → ℕ → ℝ) (bih bhh : ℕ → ℝ)
    (x : ℕ → ℕ → ℝ) (h0 : ℕ → ℝ) : ℕ → ℕ → ℝ
  | 0 => h0
  | t + 1 => gruSpecStep I H Wih Whh bih bhh (x t) (gruSpec I H Wih Whh bih bhh x h0 t)

/-- The per-batch LSTM trace determined by the plain `lstm_forward`
arguments, reading the weights and the `(1, B, H)`-shaped initial states
out of the tensors. -/
noncomputable def lstmTrace (dataT h0 c0 w_ih w_hh b_ih b_hh : Tensor) (I H b : ℕ) :
    ℕ → (ℕ → ℝ) × (ℕ → ℝ) :=
  lstmSpec I H (fun r j => w_ih.data [r, j]) (fun r j => w_hh.data [r, j])
    (fun r => b_ih.data [r]) (fun r => b_hh.data [r])
    (fun t i => dataT.data [b, t, i]) (fun j => h0.data [0, b, j]) (fun j => c0.data [0, b, j])

/-- The per-batch projected-LSTM trace determined by the `lstm_forward_proj`
arguments with a projection weight present. -/
noncomputable def lstmProjTrace (dataT h0 c0 w_ih w_hh b_ih b_hh w_hr : Tensor)
    (I H P b : ℕ) : ℕ → (ℕ → ℝ) × (ℕ → ℝ) :=
  lstmProjSpec I H P (fun r j => w_ih.data [r, j]) (fun r j => w_hh.data [r, j])
    (fun r => b_ih.data [r]) (fun r => b_hh.data [r]) (fun p k => w_hr.data [p, k])
    (fun t i => dataT.data [b, t, i]) (fun j => h0.data [0, b, j]) (fun j => c0.data [0, b, j])

/-- The per-batch GRU trace determined by the `gru_forward` arguments with
a `(B, H)`-shaped initial hidden state. -/
noncomputable def gruTrace (dataT h0 w_ih w_hh b_ih b_hh : Tensor) (I H b : ℕ) :
    ℕ → ℕ → ℝ :=
  gruSpec I H (fun r j => w_ih.data [r, j]) (fun r j => w_hh.data [r, j])
    (fun r => b_ih.data [r]) (fun r => b_hh.data [r])
    (fun t i => dataT.data [b, t, i]) (fun j => h0.data [b, j])

/-! ### Index and shape helper lemmas -/

lemma clampIdx {d i : ℕ} (h : i < d) : (if d = 1 then 0 else i) = i := by
  by_cases h1 : d = 1
  · subst h1; simp [Nat.lt_one_iff.mp h]
  · simp [h1]

lemma alignIdx_2_3 {s0 s1 : ℕ} (a : ℕ) {b c : ℕ} (h1 : b < s0) (h2 : c < s1) :
    alignIdx [s0, s1] [a, b, c] = [b, c] := by
  simp [alignIdx, clampIdx h1, clampIdx h2]

lemma alignIdx_3_3 {s0 s1 s2 a b c : ℕ} (h0 : a < s0) (h1 : b < s1) (h2 : c < s2) :
    alignIdx [s0, s1, s2] [a, b, c] = [a, b, c] := by
  simp [alignIdx, clampIdx h0, clampIdx h1, clampIdx h2]

lemma alignIdx_1_2 {s0 : ℕ} (a : ℕ) {b : ℕ} (h : b < s0) :
    alignIdx [s0] [a, b] = [b] := by
  simp [alignIdx, clampIdx h]

lemma alignIdx_2_2 {s0 s1 a b : ℕ} (h0 : a < s0) (h1 : b < s1) :
    alignIdx [s0, s1] [a, b] = [a, b] := by
  simp [alignIdx, clampIdx h0, clampIdx h1]

lemma alignIdx_3_2 {s1 s2 a b : ℕ} (h0 : a < s1) (h1 : b < s2) :
    alignIdx [1, s1, s2] [a, b] = [0, a, b] := by
  simp [alignIdx, clampIdx h0, clampIdx h1, List.replicate]

lemma insIdx_bn1 {B n : ℕ} (hB : B ≠ 1) (hn : n ≠ 1) (a b : ℕ) :
    insIdx [B, n, 1] [a, b] = [a, b, 0] := by
  simp [insIdx, hB, hn]

lemma insIdx_1nm {n m : ℕ} (hn : n ≠ 1) (hm : m ≠ 1) (a b : ℕ) :
    insIdx [1, n, m] [a, b] = [0, a, b] := by
  simp [insIdx, hn, hm]

lemma insIdx_1n1 {n : ℕ} (hn : n ≠ 1) (a : ℕ) :
    insIdx [1, n, 1] [a] = [0, a, 0] := by
  simp [insIdx, hn]

lemma filter_bn1 {B n : ℕ} (hB : B ≠ 1) (hn : n ≠ 1) :
    List.filter (fun d => d ≠ 1) [B, n, 1] = [B, n] := by
  simp [List.filter, hB, hn]

lemma filter_1nm {n m : ℕ} (hn : n ≠ 1) (hm : m ≠ 1) :
    List.filter (fun d => d ≠ 1) [1, n, m] = [n, m] := by
  simp [List.filter, hn, hm]

lemma filter_1n1 {n : ℕ} (hn : n ≠ 1) :
    List.filter (fun d => d ≠ 1) [1, n, 1] = [n] := by
  simp [List.filter, hn]

lemma toFlat_2 (B H b j : ℕ) : toFlat [B, H] [b, j] = b * H + j := by
  simp [toFlat]

lemma toFlat_3 (A B H a b j : ℕ) : toFlat [A, B, H] [a, b, j] = a * (B * H) + (b * H + j) := by
  simp [toFlat, Nat.mul_assoc]

lemma ofFlat_2 {H : ℕ} (B b : ℕ) {j : ℕ} (hj : j < H) : ofFlat [B, H] (b * H + j) = [b, j] := by
  have hH : 0 < H := by omega
  have h1 : (b * H + j) / H = b := by
    rw [Nat.add_comm, Nat.add_mul_div_right _ _ hH, Nat.div_eq_of_lt hj, Nat.zero_add]
  have h2 : (b * H + j) % H = j := by
    rw [Nat.add_comm, Nat.add_mul_mod_self_right, Nat.mod_eq_of_lt hj]
  simp [ofFlat, h1, h2]

lemma ofFlat_3 {B H b j : ℕ} (hb : b < B) (hj : j < H) :
    ofFlat [1, B, H] (b * H + j) = [0, b, j] := by
  have hH : 0 < H := by omega
  have hlt : b * H + j < B * H := by
    have hs : b * H + j < (b + 1) * H := by rw [Nat.succ_mul]; omega
    have hm : (b + 1) * H ≤ B * H := mul_le_mul_right' (Nat.succ_le_of_lt hb) H
    omega
  have d1 : (b * H + j) / (B * H) = 0 := Nat.div_eq_of_lt hlt
  have m1 : (b * H + j) % (B * H) = b * H + j := Nat.mod_eq_of_lt hlt
  have h1 : (b * H + j) / H = b := by
    rw [Nat.add_comm, Nat.add_mul_div_right _ _ hH, Nat.div_eq_of_lt hj, Nat.zero_add]
  have h2 : (b * H + j) % H = j := by
    rw [Nat.add_comm, Nat.add_mul_mod_self_right, Nat.mod_eq_of_lt hj]
  simp [ofFlat, d1, m1, h1, h2]

lemma bshape_self (s : List ℕ) : bshape s s = some s := by
  suffices h : ∀ r : List ℕ, bshapeR r r = some r by
    simp [bshape, h]
  intro r
  induction r with
  | nil => simp [bshapeR]
  | cons d t ih => simp [bshapeR, combineDim, ih]

lemma bshape_21 (B n : ℕ) : bshape [B, n] [n] = some [B, n] := by
  simp [bshape, bshapeR, combineDim]

lemma bshape_23 (B m : ℕ) : bshape [B, m] [1, B, m] = some [1, B, m] := by
  simp [bshape, bshapeR, combineDim]

lemma bshape_32 (B m : ℕ) : bshape [1, B, m] [B, m] = some [1, B, m] := by
  simp [bshape, bshapeR, combineDim]

lemma setCompat_22 (B m : ℕ) : setCompat [m, B] [m, B] = true := by
  simp [setCompat]

lemma setCompat_32 (B m : ℕ) : setCompat [m, B, 1] [m, B] = true := by
  simp [setCompat]

lemma foldlM_opt_append {S : Type} (l1 l2 : List ℕ) (f : S → ℕ → Option S) (s : S) :
    (l1 ++ l2).foldlM f s = (l1.foldlM f s).bind fun x => l2.foldlM f x := by
  induction l1 generalizing s with
  | nil => simp [List.foldlM]
  | cons a l ih =>
    simp only [List.cons_append, List.foldlM_cons]
    cases h : f s a with
    | none => simp
    | some s' => simp [ih]

lemma foldlM_opt_range_succ {S : Type} (f : S → ℕ → Option S) (n : ℕ) (s : S) :
    (List.range (n + 1)).foldlM f s = ((List.range n).foldlM f s).bind fun x => f x n := by
  rw [List.range_succ, foldlM_opt_append]
  simp [List.foldlM]

/-! ### Pointwise evaluation lemmas for the embedded tensor operations -/

lemma unsqueezeLast_shape (t : Tensor) : t.unsqueezeLast.shape = t.shape ++ [1] := rfl

lemma unsqueezeLast_data3 (t : Tensor) (a b c : ℕ) :
    t.unsqueezeLast.data [a, b, c] = t.data [a, b] := rfl

lemma map_shape (f : ℝ → ℝ) (t : Tensor) : (t.map f).shape = t.shape := rfl

lemma map_data (f : ℝ → ℝ) (t : Tensor) (idx : List ℕ) :
    (t.map f).data idx = f (t.data idx) := rfl

lemma ewise_eq_some {f : ℝ → ℝ → ℝ} {a b : Tensor} {s : List ℕ}
    (h : bshape a.shape b.shape = some s) :
    ewise f a b = some ⟨s, fun idx =>
      f (a.data (alignIdx a.shape idx)) (b.data (alignIdx b.shape idx))⟩ := by
  simp [ewise, h]

lemma sliceTime_eval {t : Tensor} {B T I : ℕ} (h : t.shape = [B, T, I]) (i : ℕ) :
    ∃ x, sliceTime t i = some x ∧ x.shape = [B, I] ∧
      ∀ a b, x.data [a, b] = t.data [a, i, b] := by
  obtain ⟨s, d⟩ := t
  simp only at h
  subst h
  exact ⟨_, rfl, rfl, fun a b => rfl⟩

lemma tile_batch_eval {w : Tensor} {n m : ℕ} (h : w.shape = [n, m]) (bs : ℕ) :
    ∃ c, tile3 w.unsqueeze0 bs 1 1 = some c ∧ c.shape = [bs, n, m] ∧
      ∀ b r l, r < n → l < m → c.data [b, r, l] = w.data [r, l] := by
  obtain ⟨s, d⟩ := w
  simp only at h
  subst h
  refine ⟨⟨[bs * 1, 1 * n, 1 * m], fun idx =>
    d [idx.getD 0 0 % 1, idx.getD 1 0 % n, idx.getD 2 0 % m].tail⟩, rfl, by simp, ?_⟩
  intro b r l hr hl
  simp [List.getD, Nat.mod_eq_of_lt hr, Nat.mod_eq_of_lt hl]

lemma bmm_eq_some {a b : Tensor} {n p q r : ℕ}
    (ha : a.shape = [n, p, q]) (hb : b.shape = [n, q, r]) :
    bmm a b = some ⟨[n, p, r], fun idx =>
      ∑ l ∈ Finset.range q,
        a.data [idx.getD 0 0, idx.getD 1 0, l] * b.data [idx.getD 0 0, l, idx.getD 2 0]⟩ := by
  obtain ⟨sa, da⟩ := a
  obtain ⟨sb, db⟩ := b
  simp only at ha hb
  subst ha hb
  simp [bmm]

lemma bmm_eval {a b : Tensor} {n p q r : ℕ} (ha : a.shape = [n, p, q]) (hb : b.shape = [n, q, r]) :
    ∃ c, bmm a b = some c ∧ c.shape = [n, p, r] ∧
      ∀ i j k, c.data [i, j, k] =
        ∑ l ∈ Finset.range q, a.data [i, j, l] * b.data [i, l, k] := by
  refine ⟨_, bmm_eq_some ha hb, rfl, ?_⟩
  intro i j k
  rfl

lemma squeeze_bn1 {t : Tensor} {n m : ℕ} (h : t.shape = [n, m, 1]) (hn : n ≠ 1) (hm : m ≠ 1) :
    t.squeeze.shape = [n, m] ∧ ∀ a b, t.squeeze.data [a, b] = t.data [a, b, 0] := by
  obtain ⟨s, d⟩ := t
  simp only at h
  subst h
  constructor
  · exact filter_bn1 hn hm
  · intro a b
    show d (insIdx [n, m, 1] [a, b]) = d [a, b, 0]
    rw [insIdx_bn1 hn hm]

lemma squeeze_1nm {t : Tensor} {n m : ℕ} (h : t.shape = [1, n, m]) (hn : n ≠ 1) (hm : m ≠ 1) :
    t.squeeze.shape = [n, m] ∧ ∀ a b, t.squeeze.data [a, b] = t.data [0, a, b] := by
  obtain ⟨s, d⟩ := t
  simp only at h
  subst h
  constructor
  · exact filter_1nm hn hm
  · intro a b
    show d (insIdx [1, n, m] [a, b]) = d [0, a, b]
    rw [insIdx_1nm hn hm]

lemma squeeze_1n1 {t : Tensor} {n : ℕ} (h : t.shape = [1, n, 1]) (hn : n ≠ 1) :
    t.squeeze.shape = [n] ∧ ∀ a, t.squeeze.data [a] = t.data [0, a, 0] := by
  obtain ⟨s, d⟩ := t
  simp only at h
  subst h
  constructor
  · exact filter_1n1 hn
  · intro a
    show d (insIdx [1, n, 1] [a]) = d [0, a, 0]
    rw [insIdx_1n1 hn]

lemma ewise_2_1 (f : ℝ → ℝ → ℝ) {a b : Tensor} {B n : ℕ}
    (ha : a.shape = [B, n]) (hb : b.shape = [n]) :
    ∃ c, ewise f a b = some c ∧ c.shape = [B, n] ∧
      ∀ i j, i < B → j < n → c.data [i, j] = f (a.data [i, j]) (b.data [j]) := by
  refine ⟨_, ewise_eq_some (by rw [ha, hb]; exact bshape_21 B n), rfl, ?_⟩
  intro i j hi hj
  show f (a.data (alignIdx a.shape [i, j])) (b.data (alignIdx b.shape [i, j])) = _
  rw [ha, hb, alignIdx_2_2 hi hj, alignIdx_1_2 i hj]

lemma ewise_2_2 (f : ℝ → ℝ → ℝ) {a b : Tensor} {B n : ℕ}
    (ha : a.shape = [B, n]) (hb : b.shape = [B, n]) :
    ∃ c, ewise f a b = some c ∧ c.shape = [B, n] ∧
      ∀ i j, i < B → j < n → c.data [i, j] = f (a.data [i, j]) (b.data [i, j]) := by
  refine ⟨_, ewise_eq_some (by rw [ha, hb]; exact bshape_self [B, n]), rfl, ?_⟩
  intro i j hi hj
  show f (a.data (alignIdx a.shape [i, j])) (b.data (alignIdx b.shape [i, j])) = _
  rw [ha, hb, alignIdx_2_2 hi hj]

lemma ewise_2_3 (f : ℝ → ℝ → ℝ) {a b : Tensor} {B n : ℕ}
    (ha : a.shape = [B, n]) (hb : b.shape = [1, B, n]) :
    ∃ c, ewise f a b = some c ∧ c.shape = [1, B, n] ∧
      ∀ i j, i < B → j < n → c.data [0, i, j] = f (a.data [i, j]) (b.data [0, i, j]) := by
  refine ⟨_, ewise_eq_some (by rw [ha, hb]; exact bshape_23 B n), rfl, ?_⟩
  intro i j hi hj
  show f (a.data (alignIdx a.shape [0, i, j])) (b.data (alignIdx b.shape [0, i, j])) = _
  rw [ha, hb, alignIdx_2_3 0 hi hj, alignIdx_3_3 Nat.one_pos hi hj]

lemma ewise_3_2 (f : ℝ → ℝ → ℝ) {a b : Tensor} {B n : ℕ}
    (ha : a.shape = [1, B, n]) (hb : b.shape = [B, n]) :
    ∃ c, ewise f a b = some c ∧ c.shape = [1, B, n] ∧
      ∀ i j, i < B → j < n → c.data [0, i, j] = f (a.data [0, i, j]) (b.data [i, j]) := by
  refine ⟨_, ewise_eq_some (by rw [ha, hb]; exact bshape_32 B n), rfl, ?_⟩
  intro i j hi hj
  show f (a.data (alignIdx a.shape [0, i, j])) (b.data (alignIdx b.shape [0, i, j])) = _
  rw [ha, hb, alignIdx_2_3 0 hi hj, alignIdx_3_3 Nat.one_pos hi hj]

lemma reshape_eq_some {t : Tensor} {s : List ℕ} (h : t.shape.prod = s.prod) :
    t.reshape s = some ⟨s, fun idx => t.data (ofFlat t.shape (toFlat s idx))⟩ := by
  simp [Tensor.reshape, h]

lemma reshape_1nm_to_nm {t : Tensor} {B n : ℕ} (h : t.shape = [1, B, n]) :
    ∃ r, t.reshape [B, n] = some r ∧ r.shape = [B, n] ∧
      ∀ a b, a < B → b < n → r.data [a, b] = t.data [0, a, b] := by
  refine ⟨_, reshape_eq_some (by rw [h]; simp), rfl, ?_⟩
  intro a b hA hb
  show t.data (ofFlat t.shape (toFlat [B, n] [a, b])) = _
  rw [h, toFlat_2, ofFlat_3 hA hb]

lemma reshape_nm_to_nm {t : Tensor} {B n : ℕ} (h : t.shape = [B, n]) :
    ∃ r, t.reshape [B, n] = some r ∧ r.shape = [B, n] ∧
      ∀ a b, a < B → b < n → r.data [a, b] = t.data [a, b] := by
  refine ⟨_, reshape_eq_some (by rw [h]), rfl, ?_⟩
  intro a b hA hb
  show t.data (ofFlat t.shape (toFlat [B, n] [a, b])) = _
  rw [h, toFlat_2, ofFlat_2 B a hb]

lemma reshape_nm_to_1nm {t : Tensor} {B n : ℕ} (h : t.shape = [B, n]) :
    ∃ r, t.reshape [1, B, n] = some r ∧ r.shape = [1, B, n] ∧
      ∀ a b, a < B → b < n → r.data [0, a, b] = t.data [a, b] := by
  refine ⟨_, reshape_eq_some (by rw [h]; simp), rfl, ?_⟩
  intro a b hA hb
  show t.data (ofFlat t.shape (toFlat [1, B, n] [0, a, b])) = _
  rw [h, toFlat_3]
  simp only [Nat.zero_mul, Nat.zero_add]
  rw [ofFlat_2 B a hb]

lemma reshape_1nm_to_1nm {t : Tensor} {B n : ℕ} (h : t.shape = [1, B, n]) :
    ∃ r, t.reshape [1, B, n] = some r ∧ r.shape = [1, B, n] ∧
      ∀ a b, a < B → b < n → r.data [0, a, b] = t.data [0, a, b] := by
  refine ⟨_, reshape_eq_some (by rw [h]), rfl, ?_⟩
  intro a b hA hb
  show t.data (ofFlat t.shape (toFlat [1, B, n] [0, a, b])) = _
  rw [h, toFlat_3]
  simp only [Nat.zero_mul, Nat.zero_add]
  rw [ofFlat_3 hA hb]

lemma sliceCols_eval {t : Tensor} {B n : ℕ} (lo hi : ℕ) (h : t.shape = [B, n]) (hh : hi ≤ n) :
    ∃ c, sliceCols t lo hi = some c ∧ c.shape = [B, hi - lo] ∧
      ∀ a b, c.data [a, b] = t.data [a, lo + b] := by
  obtain ⟨s, d⟩ := t
  simp only at h
  subst h
  refine ⟨_, rfl, by simp [Nat.min_eq_left hh], ?_⟩
  intro a b
  rfl

lemma sliceCols_rank1 {t : Tensor} {n : ℕ} (lo hi : ℕ) (h : t.shape = [n]) :
    sliceCols t lo hi = none := by
  obtain ⟨s, d⟩ := t
  simp only at h
  subst h
  rfl

lemma sliceColsFrom_eval {t : Tensor} {B n : ℕ} (lo : ℕ) (h : t.shape = [B, n]) :
    ∃ c, sliceColsFrom t lo = some c ∧ c.shape = [B, n - lo] ∧
      ∀ a b, c.data [a, b] = t.data [a, lo + b] := by
  obtain ⟨s, d⟩ := t
  simp only at h
  subst h
  exact ⟨_, rfl, rfl, fun a b => rfl⟩

lemma sliceFst_eval {t : Tensor} {n : ℕ} (hi : ℕ) (h : t.shape = [n]) (hh : hi ≤ n) :
    ∃ c, sliceFst t hi = some c ∧ c.shape = [hi] ∧ ∀ a, c.data [a] = t.data [a] := by
  obtain ⟨s, d⟩ := t
  simp only at h
  subst h
  exact ⟨_, rfl, by simp [Nat.min_eq_left hh], fun a => rfl⟩

lemma sliceFstFrom_eval {t : Tensor} {n : ℕ} (lo : ℕ) (h : t.shape = [n]) :
    ∃ c, sliceFstFrom t lo = some c ∧ c.shape = [n - lo] ∧
      ∀ a, c.data [a] = t.data [lo + a] := by
  obtain ⟨s, d⟩ := t
  simp only at h
  subst h
  exact ⟨_, rfl, rfl, fun a => rfl⟩

lemma setTime_eq_some {out v : Tensor} {B T n : ℕ} (t : ℕ)
    (ho : out.shape = [B, T, n]) (hc : setCompat v.shape.reverse [n, B] = true) :
    setTime out t v = some ⟨[B, T, n], fun idx =>
      if idx.tail.headD 0 = t then v.data (alignIdx v.shape [idx.headD 0, idx.tail.tail.headD 0])
      else out.data idx⟩ := by
  obtain ⟨so, dout⟩ := out
  simp only at ho
  subst ho
  show (if setCompat v.shape.reverse [B, n].reverse = true then _ else _) = _
  simp only [List.reverse_cons, List.reverse_nil, List.nil_append, List.cons_append]
  rw [if_pos hc]

lemma setTime_2 {out v : Tensor} {B T n : ℕ} (t : ℕ)
    (ho : out.shape = [B, T, n]) (hv : v.shape = [B, n]) :
    ∃ r, setTime out t v = some r ∧ r.shape = [B, T, n] ∧
      ∀ a u b, a < B → b < n →
        r.data [a, u, b] = if u = t then v.data [a, b] else out.data [a, u, b] := by
  refine ⟨_, setTime_eq_some t ho (by rw [hv]; exact setCompat_22 B n), rfl, ?_⟩
  intro a u b hA hb
  show (if u = t then v.data (alignIdx v.shape [a, b]) else out.data [a, u, b]) = _
  rw [hv, alignIdx_2_2 hA hb]

lemma setTime_3 {out v : Tensor} {B T n : ℕ} (t : ℕ)
    (ho : out.shape = [B, T, n]) (hv : v.shape = [1, B, n]) :
    ∃ r, setTime out t v = some r ∧ r.shape = [B, T, n] ∧
      ∀ a u b, a < B → b < n →
        r.data [a, u, b] = if u = t then v.data [0, a, b] else out.data [a, u, b] := by
  refine ⟨_, setTime_eq_some t ho (by rw [hv]; exact setCompat_32 B n), rfl, ?_⟩
  intro a u b hA hb
  show (if u = t then v.data (alignIdx v.shape [a, b]) else out.data [a, u, b]) = _
  rw [hv, alignIdx_3_2 hA hb]

/-! ### One-step evaluation of the plain LSTM loop body -/

set_option maxHeartbeats 3200000 in
lemma lstmStep_eval {B T I H : ℕ} (hB : 2 ≤ B) (hH : 1 ≤ H)
    {dataT bih bhh bwih bwhh out ph pc : Tensor} (t : ℕ) (Wih Whh : ℕ → ℕ → ℝ)
    (hd : dataT.shape = [B, T, I])
    (hbi : bih.shape = [4 * H]) (hbh : bhh.shape = [4 * H])
    (hwi : bwih.shape = [B, 4 * H, I]) (hwh : bwhh.shape = [B, 4 * H, H])
    (hwid : ∀ b r l, r < 4 * H → l < I → bwih.data [b, r, l] = Wih r l)
    (hwhd : ∀ b r l, r < 4 * H → l < H → bwhh.data [b, r, l] = Whh r l)
    (hout : out.shape = [B, T, H])
    (hph : ph.shape = [1, B, H]) (hpc : pc.shape = [1, B, H]) :
    ∃ out' ph' pc',
      lstmStep dataT bih bhh bwih bwhh B H (out, ph, pc) t = some (out', ph', pc') ∧
      out'.shape = [B, T, H] ∧ ph'.shape = [1, B, H] ∧ pc'.shape = [1, B, H] ∧
      (∀ b j, b < B → j < H →
        ph'.data [0, b, j] =
          (lstmSpecStep I H Wih Whh
            (fun r => bih.data [r]) (fun r => bhh.data [r]) (fun i => dataT.data [b, t, i])
            (fun l => ph.data [0, b, l], fun l => pc.data [0, b, l])).1 j ∧
        pc'.data [0, b, j] =
          (lstmSpecStep I H Wih Whh
            (fun r => bih.data [r]) (fun r => bhh.data [r]) (fun i => dataT.data [b, t, i])
            (fun l => ph.data [0, b, l], fun l => pc.data [0, b, l])).2 j) ∧
      (∀ b u j, b < B → u < T → j < H →
        out'.data [b, u, j] = if u = t then ph'.data [0, b, j] else out.data [b, u, j]) := by
  have hB1 : B ≠ 1 := by omega
  have h41 : 4 * H ≠ 1 := by omega
  obtain ⟨x, hx, hxs, hxd⟩ := sliceTime_eval hd t
  have hxu : x.unsqueezeLast.shape = [B, I, 1] := by rw [unsqueezeLast_shape, hxs]; rfl
  obtain ⟨wx, hwx, hwxs, hwxd⟩ := bmm_eval hwi hxu
  obtain ⟨phr, hphr, hphrs, hphrd⟩ := reshape_1nm_to_nm hph
  have hpu : phr.unsqueezeLast.shape = [B, H, 1] := by rw [unsqueezeLast_shape, hphrs]; rfl
  obtain ⟨wh, hwh2, hwhs, hwhd2⟩ := bmm_eval hwh hpu
  obtain ⟨hsq1s, hsq1d⟩ := squeeze_bn1 hwxs hB1 h41
  obtain ⟨a1, ha1, ha1s, ha1d⟩ := ewise_2_1 (· + ·) hsq1s hbi
  obtain ⟨hsq2s, hsq2d⟩ := squeeze_bn1 hwhs hB1 h41
  obtain ⟨a2, ha2, ha2s, ha2d⟩ := ewise_2_2 (· + ·) ha1s hsq2s
  obtain ⟨ab, hab, habs, habd⟩ := ewise_2_1 (· + ·) ha2s hbh
  obtain ⟨i0, hi0, hi0s, hi0d⟩ := sliceCols_eval 0 H habs (by omega)
  rw [Nat.sub_zero] at hi0s
  obtain ⟨f0, hf0, hf0s, hf0d⟩ := sliceCols_eval H (2 * H) habs (by omega)
  rw [show 2 * H - H = H by omega] at hf0s
  obtain ⟨g0, hg0, hg0s, hg0d⟩ := sliceCols_eval (2 * H) (3 * H) habs (by omega)
  rw [show 3 * H - 2 * H = H by omega] at hg0s
  obtain ⟨o0, ho0, ho0s, ho0d⟩ := sliceColsFrom_eval (3 * H) habs
  rw [show 4 * H - 3 * H = H by omega] at ho0s
  have hits : (i0.map sigmoid).shape = [B, H] := by rw [map_shape]; exact hi0s
  have hfts : (f0.map sigmoid).shape = [B, H] := by rw [map_shape]; exact hf0s
  have hgts : (g0.map Real.tanh).shape = [B, H] := by rw [map_shape]; exact hg0s
  have hots : (o0.map sigmoid).shape = [B, H] := by rw [map_shape]; exact ho0s
  obtain ⟨m1, hm1, hm1s, hm1d⟩ := ewise_2_3 (· * ·) hfts hpc
  obtain ⟨m2, hm2, hm2s, hm2d⟩ := ewise_2_2 (· * ·) hits hgts
  obtain ⟨cn, hcn, hcns, hcnd⟩ := ewise_3_2 (· + ·) hm1s hm2s
  have hcts : (cn.map Real.tanh).shape = [1, B, H] := by rw [map_shape]; exact hcns
  obtain ⟨hn, hhn, hhns, hhnd⟩ := ewise_2_3 (· * ·) hots hcts
  obtain ⟨out', hset, houts, houtd⟩ := setTime_3 t hout hhns
  refine ⟨out', hn, cn, ?_, houts, hhns, hcns, ?_, ?_⟩
  · show (Option.bind (sliceTime dataT t) fun x =>
      Option.bind (bmm bwih x.unsqueezeLast) fun w_times_x =>
      Option.bind (ph.reshape [B, H]) fun phx =>
      Option.bind (bmm bwhh phx.unsqueezeLast) fun w_times_prev_h =>
      Option.bind (ewise (· + ·) w_times_x.squeeze bih) fun s1 =>
      Option.bind (ewise (· + ·) s1 w_times_prev_h.squeeze) fun s2 =>
      Option.bind (ewise (· + ·) s2 bhh) fun all_before =>
      Option.bind (sliceCols all_before 0 H) fun iv =>
      Option.bind (sliceCols all_before H (2 * H)) fun fv =>
      Option.bind (sliceCols all_before (2 * H) (3 * H)) fun gv =>
      Option.bind (sliceColsFrom all_before (3 * H)) fun ov =>
      Option.bind (ewise (· * ·) (fv.map sigmoid) pc) fun y1 =>
      Option.bind (ewise (· * ·) (iv.map sigmoid) (gv.map Real.tanh)) fun y2 =>
      Option.bind (ewise (· + ·) y1 y2) fun cv =>
      Option.bind (ewise (· * ·) (ov.map sigmoid) (cv.map Real.tanh)) fun hv =>
      Option.bind (setTime out t hv) fun outv =>
      some (outv, hv, cv)) = some (out', hn, cn)
    simp only [hx, hwx, hphr, hwh2, ha1, ha2, hab, hi0, hf0, hg0, ho0, hm1, hm2,
      hcn, hhn, hset, Option.some_bind]
  · intro b j hb hj
    have hj4 : j < 4 * H := by omega
    have hj1 : H + j < 4 * H := by omega
    have hj2 : 2 * H + j < 4 * H := by omega
    have hj3 : 3 * H + j < 4 * H := by omega
    have hxsum : ∀ r, r < 4 * H → wx.data [b, r, 0] =
        ∑ l ∈ Finset.range I, Wih r l * dataT.data [b, t, l] := by
      intro r hr
      rw [hwxd]
      refine Finset.sum_congr rfl fun l hl => ?_
      rw [unsqueezeLast_data3, hxd, hwid b r l hr (Finset.mem_range.mp hl)]
    have hwsum : ∀ r, r < 4 * H → wh.data [b, r, 0] =
        ∑ l ∈ Finset.range H, Whh r l * ph.data [0, b, l] := by
      intro r hr
      rw [hwhd2]
      refine Finset.sum_congr rfl fun l hl => ?_
      rw [unsqueezeLast_data3, hphrd b l hb (Finset.mem_range.mp hl),
        hwhd b r l hr (Finset.mem_range.mp hl)]
    have habz : ∀ r, r < 4 * H → ab.data [b, r] =
        (∑ l ∈ Finset.range I, Wih r l * dataT.data [b, t, l]) + bih.data [r] +
          (∑ l ∈ Finset.range H, Whh r l * ph.data [0, b, l]) + bhh.data [r] := by
      intro r hr
      rw [habd b r hb hr, ha2d b r hb hr, ha1d b r hb hr, hsq1d, hsq2d,
        hxsum r hr, hwsum r hr]
    constructor
    · rw [hhnd b j hb hj, map_data, map_data, ho0d, hcnd b j hb hj, hm1d b j hb hj,
        hm2d b j hb hj, map_data, map_data, map_data, hf0d, hi0d, hg0d,
        habz _ hj3, habz _ hj1, habz _ (by omega : 0 + j < 4 * H), habz _ hj2]
      simp only [lstmSpecStep, Nat.zero_add]
    · rw [hcnd b j hb hj, hm1d b j hb hj, hm2d b j hb hj, map_data, map_data, map_data,
        hf0d, hi0d, hg0d, habz _ hj1, habz _ (by omega : 0 + j < 4 * H), habz _ hj2]
      simp only [lstmSpecStep, Nat.zero_add]
  · intro b u j hb hu hj
    exact houtd b u j hb hj

lemma lstmSpecStep_congr_state (I : ℕ) {H : ℕ} (Wih Whh : ℕ → ℕ → ℝ) (bih bhh : ℕ → ℝ)
    (xt : ℕ → ℝ) (hc1 hc2 : (ℕ → ℝ) × (ℕ → ℝ))
    (hh : ∀ l, l < H → hc1.1 l = hc2.1 l) (hcc : ∀ l, l < H → hc1.2 l = hc2.2 l) :
    ∀ j, j < H →
      (lstmSpecStep I H Wih Whh bih bhh xt hc1).1 j =
        (lstmSpecStep I H Wih Whh bih bhh xt hc2).1 j ∧
      (lstmSpecStep I H Wih Whh bih bhh xt hc1).2 j =
        (lstmSpecStep I H Wih Whh bih bhh xt hc2).2 j := by
  intro j hj
  have hz : ∀ r, (∑ l ∈ Finset.range H, Whh r l * hc1.1 l) =
      ∑ l ∈ Finset.range H, Whh r l * hc2.1 l := by
    intro r
    exact Finset.sum_congr rfl fun l hl => by rw [hh l (Finset.mem_range.mp hl)]
  constructor
  · simp only [lstmSpecStep, hz, hcc j hj]
  · simp only [lstmSpecStep, hz, hcc j hj]

/-! ### Full-run characterization of the plain LSTM forward -/

lemma lstm_run {B T I H : ℕ} (hB : 2 ≤ B) (hH : 1 ≤ H)
    {dataT h0 c0 w_ih w_hh b_ih b_hh : Tensor}
    (hd : dataT.shape = [B, T, I])
    (hh0 : h0.shape = [1, B, H]) (hc0 : c0.shape = [1, B, H])
    (hwi : w_ih.shape = [4 * H, I]) (hwh : w_hh.shape = [4 * H, H])
    (hbi : b_ih.shape = [4 * H]) (hbh : b_hh.shape = [4 * H]) :
    ∃ out hT cT,
      lstm_forward dataT (h0, c0) w_ih w_hh b_ih b_hh = some (out, (hT, cT)) ∧
      out.shape = [B, T, H] ∧ hT.shape = [1, B, H] ∧ cT.shape = [1, B, H] ∧
      (∀ b u j, b < B → u < T → j < H →
        out.data [b, u, j] = (lstmTrace dataT h0 c0 w_ih w_hh b_ih b_hh I H b (u + 1)).1 j) ∧
      (∀ b j, b < B → j < H →
        hT.data [0, b, j] = (lstmTrace dataT h0 c0 w_ih w_hh b_ih b_hh I H b T).1 j ∧
        cT.data [0, b, j] = (lstmTrace dataT h0 c0 w_ih w_hh b_ih b_hh I H b T).2 j) := by
  obtain ⟨ds, dd⟩ := dataT
  simp only at hd
  subst hd
  have hsize : w_ih.shape.headD 0 / 4 = H := by
    rw [hwi]
    show 4 * H / 4 = H
    omega
  obtain ⟨bwi, hbwi, hbwis, hbwid⟩ := tile_batch_eval hwi B
  obtain ⟨bwh, hbwh, hbwhs, hbwhd⟩ := tile_batch_eval hwh B
  have main : ∀ k, k ≤ T → ∃ o p c,
      (List.range k).foldlM (lstmStep ⟨[B, T, I], dd⟩ b_ih b_hh bwi bwh B H)
        (zerosT [B, T, H], h0, c0) = some (o, p, c) ∧
      o.shape = [B, T, H] ∧ p.shape = [1, B, H] ∧ c.shape = [1, B, H] ∧
      (∀ b u j, b < B → u < k → j < H →
        o.data [b, u, j] =
          (lstmTrace ⟨[B, T, I], dd⟩ h0 c0 w_ih w_hh b_ih b_hh I H b (u + 1)).1 j) ∧
      (∀ b j, b < B → j < H →
        p.data [0, b, j] = (lstmTrace ⟨[B, T, I], dd⟩ h0 c0 w_ih w_hh b_ih b_hh I H b k).1 j ∧
        c.data [0, b, j] = (lstmTrace ⟨[B, T, I], dd⟩ h0 c0 w_ih w_hh b_ih b_hh I H b k).2 j) := by
    intro k
    induction k with
    | zero =>
      intro _
      refine ⟨zerosT [B, T, H], h0, c0, rfl, rfl, hh0, hc0, ?_, ?_⟩
      · intro b u j _ hu _
        omega
      · intro b j _ _
        exact ⟨rfl, rfl⟩
    | succ k ih =>
      intro hk
      obtain ⟨o, p, c, hfold, hos, hps, hcs, hod, hpd⟩ := ih (by omega)
      obtain ⟨o', p', c', hstep, hos', hps', hcs', hval, hwrite⟩ :=
        @lstmStep_eval B T I H hB hH ⟨[B, T, I], dd⟩ b_ih b_hh bwi bwh o p c k
          (fun r l => w_ih.data [r, l]) (fun r l => w_hh.data [r, l])
          rfl hbi hbh hbwis hbwhs hbwid hbwhd hos hps hcs
      refine ⟨o', p', c', ?_, hos', hps', hcs', ?_, ?_⟩
      · rw [foldlM_opt_range_succ, hfold, Option.some_bind, hstep]
      · intro b u j hb hu hj
        rcases Nat.lt_succ_iff_lt_or_eq.mp hu with hu' | hu'
        · rw [hwrite b u j hb (by omega) hj, if_neg (by omega), hod b u j hb hu' hj]
        · subst hu'
          rw [hwrite b u j hb (by omega) hj, if_pos rfl]
          have hstate := lstmSpecStep_congr_state I
            (fun r l => w_ih.data [r, l]) (fun r l => w_hh.data [r, l])
            (fun r => b_ih.data [r]) (fun r => b_hh.data [r])
            (fun i => (⟨[B, T, I], dd⟩ : Tensor).data [b, u, i])
            (fun l => p.data [0, b, l], fun l => c.data [0, b, l])
            (lstmTrace ⟨[B, T, I], dd⟩ h0 c0 w_ih w_hh b_ih b_hh I H b u)
            (fun l hl => (hpd b l hb hl).1) (fun l hl => (hpd b l hb hl).2) j hj
          rw [(hval b j hb hj).1]
          show (lstmSpecStep I H _ _ _ _ _ _).1 j = _
          rw [hstate.1]
          rfl
      · intro b j hb hj
        have hstate := lstmSpecStep_congr_state I
          (fun r l => w_ih.data [r, l]) (fun r l => w_hh.data [r, l])
          (fun r => b_ih.data [r]) (fun r => b_hh.data [r])
          (fun i => (⟨[B, T, I], dd⟩ : Tensor).data [b, k, i])
          (fun l => p.data [0, b, l], fun l => c.data [0, b, l])
          (lstmTrace ⟨[B, T, I], dd⟩ h0 c0 w_ih w_hh b_ih b_hh I H b k)
          (fun l hl => (hpd b l hb hl).1) (fun l hl => (hpd b l hb hl).2) j hj
        constructor
        · rw [(hval b j hb hj).1]
          show (lstmSpecStep I H _ _ _ _ _ _).1 j = _
          rw [hstate.1]
          rfl
        · rw [(hval b j hb hj).2]
          show (lstmSpecStep I H _ _ _ _ _ _).2 j = _
          rw [hstate.2]
          rfl
  obtain ⟨o, p, c, hfold, hos, hps, hcs, hod, hpd⟩ := main T le_rfl
  refine ⟨o, p, c, ?_, hos, hps, hcs, hod, hpd⟩
  show (Option.bind (tile3 w_ih.unsqueeze0 B 1 1) fun batch_w_ih =>
    Option.bind (tile3 w_hh.unsqueeze0 B 1 1) fun batch_w_hh =>
    Option.bind ((List.range T).foldlM
      (lstmStep ⟨[B, T, I], dd⟩ b_ih b_hh batch_w_ih batch_w_hh B (w_ih.shape.headD 0 / 4))
      (zerosT [B, T, w_ih.shape.headD 0 / 4], h0, c0)) fun r =>
    some (r.1, (r.2.1, r.2.2))) = some (o, (p, c))
  rw [hsize, hbwi, Option.some_bind, hbwh, Option.some_bind, hfold, Option.some_bind]

/-! ### One-step evaluation of the GRU loop body -/

set_option maxHeartbeats 3200000 in
lemma gruStep_eval {B T I H : ℕ} (hB : 2 ≤ B) (hH : 1 ≤ H)
    {dataT bih bhh bwih bwhh out ph : Tensor} (t : ℕ) (Wih Whh : ℕ → ℕ → ℝ)
    (hd : dataT.shape = [B, T, I])
    (hbi : bih.shape = [3 * H]) (hbh : bhh.shape = [3 * H])
    (hwi : bwih.shape = [B, 3 * H, I]) (hwh : bwhh.shape = [B, 3 * H, H])
    (hwid : ∀ b r l, r < 3 * H → l < I → bwih.data [b, r, l] = Wih r l)
    (hwhd : ∀ b r l, r < 3 * H → l < H → bwhh.data [b, r, l] = Whh r l)
    (hout : out.shape = [B, T, H]) (hph : ph.shape = [B, H]) :
    ∃ out' ph',
      gruStep dataT bih bhh bwih bwhh B H (out, ph) t = some (out', ph') ∧
      out'.shape = [B, T, H] ∧ ph'.shape = [B, H] ∧
      (∀ b j, b < B → j < H →
        ph'.data [b, j] =
          gruSpecStep I H Wih Whh (fun r => bih.data [r]) (fun r => bhh.data [r])
            (fun i => dataT.data [b, t, i]) (fun l => ph.data [b, l]) j) ∧
      (∀ b u j, b < B → u < T → j < H →
        out'.data [b, u, j] = if u = t then ph'.data [b, j] else out.data [b, u, j]) := by
  have hB1 : B ≠ 1 := by omega
  have h31 : 3 * H ≠ 1 := by omega
  obtain ⟨x, hx, hxs, hxd⟩ := sliceTime_eval hd t
  have hxu : x.unsqueezeLast.shape = [B, I, 1] := by rw [unsqueezeLast_shape, hxs]; rfl
  obtain ⟨wx, hwx, hwxs, hwxd⟩ := bmm_eval hwi hxu
  obtain ⟨phr, hphr, hphrs, hphrd⟩ := reshape_nm_to_nm hph
  have hpu : phr.unsqueezeLast.shape = [B, H, 1] := by rw [unsqueezeLast_shape, hphrs]; rfl
  obtain ⟨wh, hwh2, hwhs, hwhd2⟩ := bmm_eval hwh hpu
  obtain ⟨hsq1s, hsq1d⟩ := squeeze_bn1 hwxs hB1 h31
  obtain ⟨hsq2s, hsq2d⟩ := squeeze_bn1 hwhs hB1 h31
  obtain ⟨wxs, hwxsl, hwxss, hwxsd⟩ := sliceCols_eval 0 (2 * H) hsq1s (by omega)
  rw [Nat.sub_zero] at hwxss
  obtain ⟨bi1, hbi1, hbi1s, hbi1d⟩ := sliceFst_eval (2 * H) hbi (by omega)
  obtain ⟨whs, hwhsl, hwhss, hwhsd⟩ := sliceCols_eval 0 (2 * H) hsq2s (by omega)
  rw [Nat.sub_zero] at hwhss
  obtain ⟨bh1, hbh1, hbh1s, hbh1d⟩ := sliceFst_eval (2 * H) hbh (by omega)
  obtain ⟨a1, ha1, ha1s, ha1d⟩ := ewise_2_1 (· + ·) hwxss hbi1s
  obtain ⟨a2, ha2, ha2s, ha2d⟩ := ewise_2_2 (· + ·) ha1s hwhss
  obtain ⟨rz, hrzl, hrzs, hrzd⟩ := ewise_2_1 (· + ·) ha2s hbh1s
  obtain ⟨r0, hr0, hr0s, hr0d⟩ := sliceCols_eval 0 H hrzs (by omega)
  rw [Nat.sub_zero] at hr0s
  obtain ⟨z0, hz0, hz0s, hz0d⟩ := sliceCols_eval H (2 * H) hrzs (by omega)
  rw [show 2 * H - H = H by omega] at hz0s
  obtain ⟨nx, hnx, hnxs, hnxd⟩ := sliceColsFrom_eval (2 * H) hsq1s
  rw [show 3 * H - 2 * H = H by omega] at hnxs
  obtain ⟨bi2, hbi2, hbi2s, hbi2d⟩ := sliceFstFrom_eval (2 * H) hbi
  rw [show 3 * H - 2 * H = H by omega] at hbi2s
  obtain ⟨nh, hnh, hnhs, hnhd⟩ := sliceColsFrom_eval (2 * H) hsq2s
  rw [show 3 * H - 2 * H = H by omega] at hnhs
  obtain ⟨bh2, hbh2, hbh2s, hbh2d⟩ := sliceFstFrom_eval (2 * H) hbh
  rw [show 3 * H - 2 * H = H by omega] at hbh2s
  obtain ⟨n1, hn1, hn1s, hn1d⟩ := ewise_2_1 (· + ·) hnxs hbi2s
  obtain ⟨n2, hn2, hn2s, hn2d⟩ := ewise_2_1 (· + ·) hnhs hbh2s
  have hrts : (r0.map sigmoid).shape = [B, H] := by rw [map_shape]; exact hr0s
  have hzts : (z0.map sigmoid).shape = [B, H] := by rw [map_shape]; exact hz0s
  obtain ⟨n3, hn3, hn3s, hn3d⟩ := ewise_2_2 (· * ·) hrts hn2s
  obtain ⟨n4, hn4, hn4s, hn4d⟩ := ewise_2_2 (· + ·) hn1s hn3s
  have hzms : ((z0.map sigmoid).map (fun v => 1 - v)).shape = [B, H] := by
    rw [map_shape]; exact hzts
  have hnts : (n4.map Real.tanh).shape = [B, H] := by rw [map_shape]; exact hn4s
  obtain ⟨u1, hu1, hu1s, hu1d⟩ := ewise_2_2 (· * ·) hzms hnts
  obtain ⟨u2, hu2, hu2s, hu2d⟩ := ewise_2_2 (· * ·) hzts hph
  obtain ⟨hv, hhv, hhvs, hhvd⟩ := ewise_2_2 (· + ·) hu1s hu2s
  obtain ⟨out', hset, houts, houtd⟩ := setTime_2 t hout hhvs
  refine ⟨out', hv, ?_, houts, hhvs, ?_, ?_⟩
  · show (Option.bind (sliceTime dataT t) fun x =>
      Option.bind (bmm bwih x.unsqueezeLast) fun w_times_x =>
      Option.bind (ph.reshape [B, H]) fun phx =>
      Option.bind (bmm bwhh phx.unsqueezeLast) fun w_times_prev_h =>
      Option.bind (sliceCols w_times_x.squeeze 0 (2 * H)) fun wxs =>
      Option.bind (sliceFst bih (2 * H)) fun bi1 =>
      Option.bind (sliceCols w_times_prev_h.squeeze 0 (2 * H)) fun whs =>
      Option.bind (sliceFst bhh (2 * H)) fun bh1 =>
      Option.bind (ewise (· + ·) wxs bi1) fun a1 =>
      Option.bind (ewise (· + ·) a1 whs) fun a2 =>
      Option.bind (ewise (· + ·) a2 bh1) fun r_z =>
      Option.bind (sliceCols r_z 0 H) fun rv =>
      Option.bind (sliceCols r_z H (2 * H)) fun zv =>
      Option.bind (sliceColsFrom w_times_x.squeeze (2 * H)) fun nx =>
      Option.bind (sliceFstFrom bih (2 * H)) fun bi2 =>
      Option.bind (sliceColsFrom w_times_prev_h.squeeze (2 * H)) fun nh =>
      Option.bind (sliceFstFrom bhh (2 * H)) fun bh2 =>
      Option.bind (ewise (· + ·) nx bi2) fun n1 =>
      Option.bind (ewise (· + ·) nh bh2) fun n2 =>
      Option.bind (ewise (· * ·) (rv.map sigmoid) n2) fun n3 =>
      Option.bind (ewise (· + ·) n1 n3) fun n4 =>
      Option.bind (ewise (· * ·) ((zv.map sigmoid).map (fun v => 1 - v))
        (n4.map Real.tanh)) fun y1 =>
      Option.bind (ewise (· * ·) (zv.map sigmoid) ph) fun y2 =>
      Option.bind (ewise (· + ·) y1 y2) fun hv =>
      Option.bind (setTime out t hv) fun outv =>
      some (outv, hv)) = some (out', hv)
    rw [hx]
    rw [Option.some_bind]
    rw [hwx]
    rw [Option.some_bind]
    rw [hphr]
    rw [Option.some_bind]
    rw [hwh2]
    rw [Option.some_bind]
    rw [hwxsl]
    rw [Option.some_bind]
    rw [hbi1]
    rw [Option.some_bind]
    rw [hwhsl]
    rw [Option.some_bind]
    rw [hbh1]
    rw [Option.some_bind]
    rw [ha1]
    rw [Option.some_bind]
    rw [ha2]
    rw [Option.some_bind]
    rw [hrzl]
    rw [Option.some_bind]
    rw [hr0]
    rw [Option.some_bind]
    rw [hz0]
    rw [Option.some_bind]
    rw [hnx]
    rw [Option.some_bind]
    rw [hbi2]
    rw [Option.some_bind]
    rw [hnh]
    rw [Option.some_bind]
    rw [hbh2]
    rw [Option.some_bind]
    rw [hn1]
    rw [Option.some_bind]
    rw [hn2]
    rw [Option.some_bind]
    rw [hn3]
    rw [Option.some_bind]
    rw [hn4]
    rw [Option.some_bind]
    rw [hu1]
    rw [Option.some_bind]
    rw [hu2]
    rw [Option.some_bind]
    rw [hhv]
    rw [Option.some_bind]
    rw [hset]
    rw [Option.some_bind]
  · intro b j hb hj
    have hxsum : ∀ r, r < 3 * H → wx.data [b, r, 0] =
        ∑ l ∈ Finset.range I, Wih r l * dataT.data [b, t, l] := by
      intro r hr
      rw [hwxd]
      refine Finset.sum_congr rfl fun l hl => ?_
      rw [unsqueezeLast_data3, hxd, hwid b r l hr (Finset.mem_range.mp hl)]
    have hwsum : ∀ r, r < 3 * H → wh.data [b, r, 0] =
        ∑ l ∈ Finset.range H, Whh r l * ph.data [b, l] := by
      intro r hr
      rw [hwhd2]
      refine Finset.sum_congr rfl fun l hl => ?_
      rw [unsqueezeLast_data3, hphrd b l hb (Finset.mem_range.mp hl),
        hwhd b r l hr (Finset.mem_range.mp hl)]
    have hrz : ∀ r, r < 2 * H → rz.data [b, r] =
        (∑ l ∈ Finset.range I, Wih r l * dataT.data [b, t, l]) + bih.data [r] +
          (∑ l ∈ Finset.range H, Whh r l * ph.data [b, l]) + bhh.data [r] := by
      intro r hr
      rw [hrzd b r hb hr, ha2d b r hb hr, ha1d b r hb hr, hwxsd, hwhsd, hbi1d, hbh1d,
        hsq1d, hsq2d, Nat.zero_add, hxsum r (by omega), hwsum r (by omega)]
    have hn4v : n4.data [b, j] =
        ((∑ l ∈ Finset.range I, Wih (2 * H + j) l * dataT.data [b, t, l]) +
          bih.data [2 * H + j]) +
        sigmoid (rz.data [b, j]) *
          ((∑ l ∈ Finset.range H, Whh (2 * H + j) l * ph.data [b, l]) +
            bhh.data [2 * H + j]) := by
      rw [hn4d b j hb hj, hn1d b j hb hj, hn3d b j hb hj, map_data, hr0d,
        hn2d b j hb hj, hnxd, hnhd, hbi2d, hbh2d, hsq1d, hsq2d, Nat.zero_add,
        hxsum (2 * H + j) (by omega), hwsum (2 * H + j) (by omega)]
    rw [hhvd b j hb hj, hu1d b j hb hj, hu2d b j hb hj]
    simp only [map_data]
    rw [hz0d, hn4v, hrz (H + j) (by omega), hrz j (by omega)]
    simp only [gruSpecStep, add_assoc]
  · intro b u j hb hu hj
    exact houtd b u j hb hj

lemma gruSpecStep_congr_state (I : ℕ) {H : ℕ} (Wih Whh : ℕ → ℕ → ℝ) (bih bhh : ℕ → ℝ)
    (xt : ℕ → ℝ) (h1 h2 : ℕ → ℝ) (hh : ∀ l, l < H → h1 l = h2 l) :
    ∀ j, j < H →
      gruSpecStep I H Wih Whh bih bhh xt h1 j = gruSpecStep I H Wih Whh bih bhh xt h2 j := by
  intro j hj
  have hq : ∀ r, (∑ l ∈ Finset.range H, Whh r l * h1 l) =
      ∑ l ∈ Finset.range H, Whh r l * h2 l := by
    intro r
    exact Finset.sum_congr rfl fun l hl => by rw [hh l (Finset.mem_range.mp hl)]
  simp only [gruSpecStep, hq, hh j hj]

/-! ### Full-run characterization of the GRU forward -/

lemma gru_run {B T I H : ℕ} (hB : 2 ≤ B) (hH : 1 ≤ H)
    {dataT h0 w_ih w_hh b_ih b_hh : Tensor}
    (hd : dataT.shape = [B, T, I]) (hh0 : h0.shape = [B, H])
    (hwi : w_ih.shape = [3 * H, I]) (hwh : w_hh.shape = [3 * H, H])
    (hbi : b_ih.shape = [3 * H]) (hbh : b_hh.shape = [3 * H]) :
    ∃ out hT,
      gru_forward dataT h0 w_ih w_hh b_ih b_hh = some (out, hT) ∧
      out.shape = [B, T, H] ∧ hT.shape = [B, H] ∧
      (∀ b u j, b < B → u < T → j < H →
        out.data [b, u, j] = gruTrace dataT h0 w_ih w_hh b_ih b_hh I H b (u + 1) j) ∧
      (∀ b j, b < B → j < H →
        hT.data [b, j] = gruTrace dataT h0 w_ih w_hh b_ih b_hh I H b T j) := by
  obtain ⟨ds, dd⟩ := dataT
  simp only at hd
  subst hd
  have hsize : w_ih.shape.headD 0 / 3 = H := by
    rw [hwi]
    show 3 * H / 3 = H
    omega
  obtain ⟨bwi, hbwi, hbwis, hbwid⟩ := tile_batch_eval hwi B
  obtain ⟨bwh, hbwh, hbwhs, hbwhd⟩ := tile_batch_eval hwh B
  have main : ∀ k, k ≤ T → ∃ o p,
      (List.range k).foldlM (gruStep ⟨[B, T, I], dd⟩ b_ih b_hh bwi bwh B H)
        (zerosT [B, T, H], h0) = some (o, p) ∧
      o.shape = [B, T, H] ∧ p.shape = [B, H] ∧
      (∀ b u j, b < B → u < k → j < H →
        o.data [b, u, j] =
          gruTrace ⟨[B, T, I], dd⟩ h0 w_ih w_hh b_ih b_hh I H b (u + 1) j) ∧
      (∀ b j, b < B → j < H →
        p.data [b, j] = gruTrace ⟨[B, T, I], dd⟩ h0 w_ih w_hh b_ih b_hh I H b k j) := by
    intro k
    induction k with
    | zero =>
      intro _
      refine ⟨zerosT [B, T, H], h0, rfl, rfl, hh0, ?_, ?_⟩
      · intro b u j _ hu _
        omega
      · intro b j _ _
        rfl
    | succ k ih =>
      intro hk
      obtain ⟨o, p, hfold, hos, hps, hod, hpd⟩ := ih (by omega)
      obtain ⟨o', p', hstep, hos', hps', hval, hwrite⟩ :=
        @gruStep_eval B T I H hB hH ⟨[B, T, I], dd⟩ b_ih b_hh bwi bwh o p k
          (fun r l => w_ih.data [r, l]) (fun r l => w_hh.data [r, l])
          rfl hbi hbh hbwis hbwhs hbwid hbwhd hos hps
      refine ⟨o', p', ?_, hos', hps', ?_, ?_⟩
      · rw [foldlM_opt_range_succ, hfold, Option.some_bind, hstep]
      · intro b u j hb hu hj
        rcases Nat.lt_succ_iff_lt_or_eq.mp hu with hu' | hu'
        · rw [hwrite b u j hb (by omega) hj, if_neg (by omega), hod b u j hb hu' hj]
        · subst hu'
          rw [hwrite b u j hb (by omega) hj, if_pos rfl, hval b j hb hj]
          have hstate := gruSpecStep_congr_state I
            (fun r l => w_ih.data [r, l]) (fun r l => w_hh.data [r, l])
            (fun r => b_ih.data [r]) (fun r => b_hh.data [r])
            (fun i => (⟨[B, T, I], dd⟩ : Tensor).data [b, u, i])
            (fun l => p.data [b, l])
            (gruTrace ⟨[B, T, I], dd⟩ h0 w_ih w_hh b_ih b_hh I H b u)
            (fun l hl => hpd b l hb hl) j hj
          rw [hstate]
          rfl
      · intro b j hb hj
        rw [hval b j hb hj]
        have hstate := gruSpecStep_congr_state I
          (fun r l => w_ih.data [r, l]) (fun r l => w_hh.data [r, l])
          (fun r => b_ih.data [r]) (fun r => b_hh.data [r])
          (fun i => (⟨[B, T, I], dd⟩ : Tensor).data [b, k, i])
          (fun l => p.data [b, l])
          (gruTrace ⟨[B, T, I], dd⟩ h0 w_ih w_hh b_ih b_hh I H b k)
          (fun l hl => hpd b l hb hl) j hj
        rw [hstate]
        rfl
  obtain ⟨o, p, hfold, hos, hps, hod, hpd⟩ := main T le_rfl
  refine ⟨o, p, ?_, hos, hps, hod, hpd⟩
  show (Option.bind (tile3 w_ih.unsqueeze0 B 1 1) fun batch_w_ih =>
    Option.bind (tile3 w_hh.unsqueeze0 B 1 1) fun batch_w_hh =>
    Option.bind ((List.range T).foldlM
      (gruStep ⟨[B, T, I], dd⟩ b_ih b_hh batch_w_ih batch_w_hh B (w_ih.shape.headD 0 / 3))
      (zerosT [B, T, w_ih.shape.headD 0 / 3], h0)) fun r =>
    some (r.1, r.2)) = some (o, p)
  rw [hsize, hbwi, Option.some_bind, hbwh, Option.some_bind, hfold, Option.some_bind]

/-! ### One-step evaluation of the projected LSTM loop body -/

set_option maxHeartbeats 3200000 in
lemma lstmProjStep_eval {B T I H P : ℕ} (hB : 2 ≤ B) (hH : 2 ≤ H) (hP : 2 ≤ P)
    {dataT bih bhh bwih bwhh bwhr out ph pc : Tensor} (t : ℕ)
    (Wih Whh Whr : ℕ → ℕ → ℝ) (hv : ℕ → ℕ → ℝ)
    (hd : dataT.shape = [B, T, I])
    (hbi : bih.shape = [4 * H]) (hbh : bhh.shape = [4 * H])
    (hwi : bwih.shape = [B, 4 * H, I]) (hwh : bwhh.shape = [B, 4 * H, P])
    (hwr : bwhr.shape = [B, P, H])
    (hwid : ∀ b r l, r < 4 * H → l < I → bwih.data [b, r, l] = Wih r l)
    (hwhd : ∀ b r l, r < 4 * H → l < P → bwhh.data [b, r, l] = Whh r l)
    (hwrd : ∀ b r l, r < P → l < H → bwhr.data [b, r, l] = Whr r l)
    (hout : out.shape = [B, T, P])
    (hph : (ph.shape = [1, B, P] ∧ ∀ b j, b < B → j < P → ph.data [0, b, j] = hv b j) ∨
           (ph.shape = [B, P] ∧ ∀ b j, b < B → j < P → ph.data [b, j] = hv b j))
    (hpc : pc.shape = [1, B, H]) :
    ∃ out' ph' pc',
      lstmProjStep dataT bih bhh bwih bwhh B H (some (P, bwhr)) (out, ph, pc) t =
        some (out', ph', pc') ∧
      out'.shape = [B, T, P] ∧ ph'.shape = [B, P] ∧ pc'.shape = [1, B, H] ∧
      (∀ b j, b < B → j < P →
        ph'.data [b, j] =
          (lstmProjSpecStep I H P Wih Whh
            (fun r => bih.data [r]) (fun r => bhh.data [r]) Whr (fun i => dataT.data [b, t, i])
            (fun l => hv b l, fun l => pc.data [0, b, l])).1 j) ∧
      (∀ b j, b < B → j < H →
        pc'.data [0, b, j] =
          (lstmProjSpecStep I H P Wih Whh
            (fun r => bih.data [r]) (fun r => bhh.data [r]) Whr (fun i => dataT.data [b, t, i])
            (fun l => hv b l, fun l => pc.data [0, b, l])).2 j) ∧
      (∀ b u j, b < B → u < T → j < P →
        out'.data [b, u, j] = if u = t then ph'.data [b, j] else out.data [b, u, j]) := by
  have hB1 : B ≠ 1 := by omega
  have hH1 : H ≠ 1 := by omega
  have hP1 : P ≠ 1 := by omega
  have h41 : 4 * H ≠ 1 := by omega
  obtain ⟨x, hx, hxs, hxd⟩ := sliceTime_eval hd t
  have hxu : x.unsqueezeLast.shape = [B, I, 1] := by rw [unsqueezeLast_shape, hxs]; rfl
  obtain ⟨wx, hwx, hwxs, hwxd⟩ := bmm_eval hwi hxu
  have hre : ∃ phr, ph.reshape [B, P] = some phr ∧ phr.shape = [B, P] ∧
      ∀ a b, a < B → b < P → phr.data [a, b] = hv a b := by
    rcases hph with ⟨hs, hdat⟩ | ⟨hs, hdat⟩
    · obtain ⟨phr, h1, h2, h3⟩ := reshape_1nm_to_nm hs
      exact ⟨phr, h1, h2, fun a b ha hb => by rw [h3 a b ha hb, hdat a b ha hb]⟩
    · obtain ⟨phr, h1, h2, h3⟩ := reshape_nm_to_nm hs
      exact ⟨phr, h1, h2, fun a b ha hb => by rw [h3 a b ha hb, hdat a b ha hb]⟩
  obtain ⟨phr, hphr, hphrs, hphrd⟩ := hre
  have hpu : phr.unsqueezeLast.shape = [B, P, 1] := by rw [unsqueezeLast_shape, hphrs]; rfl
  obtain ⟨wh, hwh2, hwhs, hwhd2⟩ := bmm_eval hwh hpu
  obtain ⟨hsq1s, hsq1d⟩ := squeeze_bn1 hwxs hB1 h41
  obtain ⟨a1, ha1, ha1s, ha1d⟩ := ewise_2_1 (· + ·) hsq1s hbi
  obtain ⟨hsq2s, hsq2d⟩ := squeeze_bn1 hwhs hB1 h41
  obtain ⟨a2, ha2, ha2s, ha2d⟩ := ewise_2_2 (· + ·) ha1s hsq2s
  obtain ⟨ab, hab, habs, habd⟩ := ewise_2_1 (· + ·) ha2s hbh
  obtain ⟨i0, hi0, hi0s, hi0d⟩ := sliceCols_eval 0 H habs (by omega)
  rw [Nat.sub_zero] at hi0s
  obtain ⟨f0, hf0, hf0s, hf0d⟩ := sliceCols_eval H (2 * H) habs (by omega)
  rw [show 2 * H - H = H by omega] at hf0s
  obtain ⟨g0, hg0, hg0s, hg0d⟩ := sliceCols_eval (2 * H) (3 * H) habs (by omega)
  rw [show 3 * H - 2 * H = H by omega] at hg0s
  obtain ⟨o0, ho0, ho0s, ho0d⟩ := sliceColsFrom_eval (3 * H) habs
  rw [show 4 * H - 3 * H = H by omega] at ho0s
  have hits : (i0.map sigmoid).shape = [B, H] := by rw [map_shape]; exact hi0s
  have hfts : (f0.map sigmoid).shape = [B, H] := by rw [map_shape]; exact hf0s
  have hgts : (g0.map Real.tanh).shape = [B, H] := by rw [map_shape]; exact hg0s
  have hots : (o0.map sigmoid).shape = [B, H] := by rw [map_shape]; exact ho0s
  obtain ⟨m1, hm1, hm1s, hm1d⟩ := ewise_2_3 (· * ·) hfts hpc
  obtain ⟨m2, hm2, hm2s, hm2d⟩ := ewise_2_2 (· * ·) hits hgts
  obtain ⟨cn, hcn, hcns, hcnd⟩ := ewise_3_2 (· + ·) hm1s hm2s
  have hcts : (cn.map Real.tanh).shape = [1, B, H] := by rw [map_shape]; exact hcns
  obtain ⟨hn, hhn, hhns, hhnd⟩ := ewise_2_3 (· * ·) hots hcts
  obtain ⟨hsq3s, hsq3d⟩ := squeeze_1nm hhns hB1 hH1
  have hsqu : hn.squeeze.unsqueezeLast.shape = [B, H, 1] := by
    rw [unsqueezeLast_shape, hsq3s]; rfl
  obtain ⟨mr, hmr, hmrs, hmrd⟩ := bmm_eval hwr hsqu
  obtain ⟨hsq4s, hsq4d⟩ := squeeze_bn1 hmrs hB1 hP1
  obtain ⟨out', hset, houts, houtd⟩ := setTime_2 t hout hsq4s
  refine ⟨out', mr.squeeze, cn, ?_, houts, hsq4s, hcns, ?_, ?_, ?_⟩
  · show (Option.bind (sliceTime dataT t) fun x =>
      Option.bind (bmm bwih x.unsqueezeLast) fun w_times_x =>
      Option.bind (ph.reshape [B, P]) fun phx =>
      Option.bind (bmm bwhh phx.unsqueezeLast) fun w_times_prev_h =>
      Option.bind (ewise (· + ·) w_times_x.squeeze bih) fun s1 =>
      Option.bind (ewise (· + ·) s1 w_times_prev_h.squeeze) fun s2 =>
      Option.bind (ewise (· + ·) s2 bhh) fun all_before =>
      Option.bind (sliceCols all_before 0 H) fun iv =>
      Option.bind (sliceCols all_before H (2 * H)) fun fv =>
      Option.bind (sliceCols all_before (2 * H) (3 * H)) fun gv =>
      Option.bind (sliceColsFrom all_before (3 * H)) fun ov =>
      Option.bind (ewise (· * ·) (fv.map sigmoid) pc) fun y1 =>
      Option.bind (ewise (· * ·) (iv.map sigmoid) (gv.map Real.tanh)) fun y2 =>
      Option.bind (ewise (· + ·) y1 y2) fun cv =>
      Option.bind (ewise (· * ·) (ov.map sigmoid) (cv.map Real.tanh)) fun hcell =>
      Option.bind (Option.bind (bmm bwhr hcell.squeeze.unsqueezeLast) fun m =>
        some m.squeeze) fun hv2 =>
      Option.bind (setTime out t hv2) fun outv =>
      some (outv, hv2, cv)) = some (out', mr.squeeze, cn)
    rw [hx]
    rw [Option.some_bind]
    rw [hwx]
    rw [Option.some_bind]
    rw [hphr]
    rw [Option.some_bind]
    rw [hwh2]
    rw [Option.some_bind]
    rw [ha1]
    rw [Option.some_bind]
    rw [ha2]
    rw [Option.some_bind]
    rw [hab]
    rw [Option.some_bind]
    rw [hi0]
    rw [Option.some_bind]
    rw [hf0]
    rw [Option.some_bind]
    rw [hg0]
    rw [Option.some_bind]
    rw [ho0]
    rw [Option.some_bind]
    rw [hm1]
    rw [Option.some_bind]
    rw [hm2]
    rw [Option.some_bind]
    rw [hcn]
    rw [Option.some_bind]
    rw [hhn]
    rw [Option.some_bind]
    rw [hmr]
    rw [Option.some_bind]
    rw [Option.some_bind]
    rw [hset]
    rw [Option.some_bind]
  · intro b j hb hj
    have hcellv : ∀ l, l < H → hn.data [0, b, l] =
        sigmoid (ab.data [b, 3 * H + l]) *
          Real.tanh (sigmoid (ab.data [b, H + l]) * pc.data [0, b, l] +
            sigmoid (ab.data [b, 0 + l]) * Real.tanh (ab.data [b, 2 * H + l])) := by
      intro l hl
      rw [hhnd b l hb hl, map_data, map_data, ho0d, hcnd b l hb hl, hm1d b l hb hl,
        hm2d b l hb hl, map_data, map_data, map_data, hf0d, hi0d, hg0d]
    have hxsum : ∀ r, r < 4 * H → wx.data [b, r, 0] =
        ∑ l ∈ Finset.range I, Wih r l * dataT.data [b, t, l] := by
      intro r hr
      rw [hwxd]
      refine Finset.sum_congr rfl fun l hl => ?_
      rw [unsqueezeLast_data3, hxd, hwid b r l hr (Finset.mem_range.mp hl)]
    have hwsum : ∀ r, r < 4 * H → wh.data [b, r, 0] =
        ∑ l ∈ Finset.range P, Whh r l * hv b l := by
      intro r hr
      rw [hwhd2]
      refine Finset.sum_congr rfl fun l hl => ?_
      rw [unsqueezeLast_data3, hphrd b l hb (Finset.mem_range.mp hl),
        hwhd b r l hr (Finset.mem_range.mp hl)]
    have habz : ∀ r, r < 4 * H → ab.data [b, r] =
        (∑ l ∈ Finset.range I, Wih r l * dataT.data [b, t, l]) + bih.data [r] +
          (∑ l ∈ Finset.range P, Whh r l * hv b l) + bhh.data [r] := by
      intro r hr
      rw [habd b r hb hr, ha2d b r hb hr, ha1d b r hb hr, hsq1d, hsq2d,
        hxsum r hr, hwsum r hr]
    rw [hsq4d, hmrd]
    have hsum : (∑ l ∈ Finset.range H,
        bwhr.data [b, j, l] * hn.squeeze.unsqueezeLast.data [b, l, 0]) =
        ∑ l ∈ Finset.range H, Whr j l *
          (sigmoid (ab.data [b, 3 * H + l]) *
            Real.tanh (sigmoid (ab.data [b, H + l]) * pc.data [0, b, l] +
              sigmoid (ab.data [b, 0 + l]) * Real.tanh (ab.data [b, 2 * H + l]))) := by
      refine Finset.sum_congr rfl fun l hl => ?_
      rw [unsqueezeLast_data3, hsq3d, hcellv l (Finset.mem_range.mp hl),
        hwrd b j l hj (Finset.mem_range.mp hl)]
    rw [hsum]
    simp only [lstmProjSpecStep, Nat.zero_add]
    refine Finset.sum_congr rfl fun l hl => ?_
    have hlH := Finset.mem_range.mp hl
    rw [habz _ (by omega : 3 * H + l < 4 * H), habz _ (by omega : H + l < 4 * H),
      habz _ (by omega : l < 4 * H), habz _ (by omega : 2 * H + l < 4 * H)]
  · intro b j hb hj
    have hj1 : H + j < 4 * H := by omega
    have hj2 : 2 * H + j < 4 * H := by omega
    have hxsum : ∀ r, r < 4 * H → wx.data [b, r, 0] =
        ∑ l ∈ Finset.range I, Wih r l * dataT.data [b, t, l] := by
      intro r hr
      rw [hwxd]
      refine Finset.sum_congr rfl fun l hl => ?_
      rw [unsqueezeLast_data3, hxd, hwid b r l hr (Finset.mem_range.mp hl)]
    have hwsum : ∀ r, r < 4 * H → wh.data [b, r, 0] =
        ∑ l ∈ Finset.range P, Whh r l * hv b l := by
      intro r hr
      rw [hwhd2]
      refine Finset.sum_congr rfl fun l hl => ?_
      rw [unsqueezeLast_data3, hphrd b l hb (Finset.mem_range.mp hl),
        hwhd b r l hr (Finset.mem_range.mp hl)]
    have habz : ∀ r, r < 4 * H → ab.data [b, r] =
        (∑ l ∈ Finset.range I, Wih r l * dataT.data [b, t, l]) + bih.data [r] +
          (∑ l ∈ Finset.range P, Whh r l * hv b l) + bhh.data [r] := by
      intro r hr
      rw [habd b r hb hr, ha2d b r hb hr, ha1d b r hb hr, hsq1d, hsq2d,
        hxsum r hr, hwsum r hr]
    rw [hcnd b j hb hj, hm1d b j hb hj, hm2d b j hb hj, map_data, map_data, map_data,
      hf0d, hi0d, hg0d, habz _ hj1, habz _ (by omega : 0 + j < 4 * H), habz _ hj2]
    simp only [lstmProjSpecStep, Nat.zero_add]
  · intro b u j hb hu hj
    exact houtd b u j hb hj

lemma lstmProjSpecStep_congr_state (I H P : ℕ) (Wih Whh : ℕ → ℕ → ℝ)
    (bih bhh : ℕ → ℝ) (Whr : ℕ → ℕ → ℝ) (xt : ℕ → ℝ) (hc1 hc2 : (ℕ → ℝ) × (ℕ → ℝ))
    (hh : ∀ l, l < P → hc1.1 l = hc2.1 l) (hcc : ∀ l, l < H → hc1.2 l = hc2.2 l) :
    (∀ j, j < P →
      (lstmProjSpecStep I H P Wih Whh bih bhh Whr xt hc1).1 j =
        (lstmProjSpecStep I H P Wih Whh bih bhh Whr xt hc2).1 j) ∧
    (∀ j, j < H →
      (lstmProjSpecStep I H P Wih Whh bih bhh Whr xt hc1).2 j =
        (lstmProjSpecStep I H P Wih Whh bih bhh Whr xt hc2).2 j) := by
  have hz : ∀ r, (∑ l ∈ Finset.range P, Whh r l * hc1.1 l) =
      ∑ l ∈ Finset.range P, Whh r l * hc2.1 l := by
    intro r
    exact Finset.sum_congr rfl fun l hl => by rw [hh l (Finset.mem_range.mp hl)]
  constructor
  · intro j hj
    simp only [lstmProjSpecStep, hz]
    refine Finset.sum_congr rfl fun k hk => ?_
    rw [hcc k (Finset.mem_range.mp hk)]
  · intro j hj
    simp only [lstmProjSpecStep, hz, hcc j hj]

/-! ### Full-run characterization of the projected LSTM forward -/

lemma lstm_proj_run {B T I H P : ℕ} (hB : 2 ≤ B) (hH : 2 ≤ H) (hP : 2 ≤ P)
    {dataT h0 c0 w_ih w_hh b_ih b_hh w_hr : Tensor}
    (hd : dataT.shape = [B, T, I])
    (hh0 : h0.shape = [1, B, P]) (hc0 : c0.shape = [1, B, H])
    (hwi : w_ih.shape = [4 * H, I]) (hwh : w_hh.shape = [4 * H, P])
    (hbi : b_ih.shape = [4 * H]) (hbh : b_hh.shape = [4 * H])
    (hwr : w_hr.shape = [P, H]) :
    ∃ out hT cT,
      lstm_forward_proj dataT (h0, c0) w_ih w_hh b_ih b_hh (some w_hr) =
        some (out, (hT, cT)) ∧
      out.shape = [B, T, P] ∧ hT.shape = [1, B, P] ∧ cT.shape = [1, B, H] ∧
      (∀ b u j, b < B → u < T → j < P →
        out.data [b, u, j] =
          (lstmProjTrace dataT h0 c0 w_ih w_hh b_ih b_hh w_hr I H P b (u + 1)).1 j) ∧
      (∀ b j, b < B → j < P →
        hT.data [0, b, j] =
          (lstmProjTrace dataT h0 c0 w_ih w_hh b_ih b_hh w_hr I H P b T).1 j) ∧
      (∀ b j, b < B → j < H →
        cT.data [0, b, j] =
          (lstmProjTrace dataT h0 c0 w_ih w_hh b_ih b_hh w_hr I H P b T).2 j) := by
  obtain ⟨ds, dd⟩ := dataT
  simp only at hd
  subst hd
  have hsize : w_ih.shape.headD 0 / 4 = H := by
    rw [hwi]
    show 4 * H / 4 = H
    omega
  have hsizeP : w_hr.shape.headD 0 = P := by rw [hwr]; rfl
  obtain ⟨bwi, hbwi, hbwis, hbwid⟩ := tile_batch_eval hwi B
  obtain ⟨bwh, hbwh, hbwhs, hbwhd⟩ := tile_batch_eval hwh B
  obtain ⟨bwr, hbwr, hbwrs, hbwrd⟩ := tile_batch_eval hwr B
  have main : ∀ k, k ≤ T → ∃ o p c,
      (List.range k).foldlM
        (lstmProjStep ⟨[B, T, I], dd⟩ b_ih b_hh bwi bwh B H (some (P, bwr)))
        (zerosT [B, T, P], h0, c0) = some (o, p, c) ∧
      o.shape = [B, T, P] ∧
      ((p.shape = [1, B, P] ∧ ∀ b j, b < B → j < P →
          p.data [0, b, j] =
            (lstmProjTrace ⟨[B, T, I], dd⟩ h0 c0 w_ih w_hh b_ih b_hh w_hr I H P b k).1 j) ∨
       (p.shape = [B, P] ∧ ∀ b j, b < B → j < P →
          p.data [b, j] =
            (lstmProjTrace ⟨[B, T, I], dd⟩ h0 c0 w_ih w_hh b_ih b_hh w_hr I H P b k).1 j)) ∧
      c.shape = [1, B, H] ∧
      (∀ b u j, b < B → u < k → j < P →
        o.data [b, u, j] =
          (lstmProjTrace ⟨[B, T, I], dd⟩ h0 c0 w_ih w_hh b_ih b_hh w_hr I H P b (u + 1)).1 j) ∧
      (∀ b j, b < B → j < H →
        c.data [0, b, j] =
          (lstmProjTrace ⟨[B, T, I], dd⟩ h0 c0 w_ih w_hh b_ih b_hh w_hr I H P b k).2 j) := by
    intro k
    induction k with
    | zero =>
      intro _
      refine ⟨zerosT [B, T, P], h0, c0, rfl, rfl, Or.inl ⟨hh0, ?_⟩, hc0, ?_, ?_⟩
      · intro b j _ _
        rfl
      · intro b u j _ hu _
        omega
      · intro b j _ _
        rfl
    | succ k ih =>
      intro hk
      obtain ⟨o, p, c, hfold, hos, hph, hcs, hod, hcd⟩ := ih (by omega)
      obtain ⟨o', p', c', hstep, hos', hps', hcs', hval, hcval, hwrite⟩ :=
        @lstmProjStep_eval B T I H P hB hH hP ⟨[B, T, I], dd⟩ b_ih b_hh bwi bwh bwr o p c k
          (fun r l => w_ih.data [r, l]) (fun r l => w_hh.data [r, l])
          (fun r l => w_hr.data [r, l])
          (fun b l =>
            (lstmProjTrace ⟨[B, T, I], dd⟩ h0 c0 w_ih w_hh b_ih b_hh w_hr I H P b k).1 l)
          rfl hbi hbh hbwis hbwhs hbwrs hbwid hbwhd hbwrd hos hph hcs
      have hcongr : ∀ b, b < B → ∀ j,
          (j < P →
            (lstmProjSpecStep I H P (fun r l => w_ih.data [r, l]) (fun r l => w_hh.data [r, l])
              (fun r => b_ih.data [r]) (fun r => b_hh.data [r]) (fun r l => w_hr.data [r, l])
              (fun i => (⟨[B, T, I], dd⟩ : Tensor).data [b, k, i])
              (fun l => (lstmProjTrace ⟨[B, T, I], dd⟩ h0 c0 w_ih w_hh b_ih b_hh w_hr
                I H P b k).1 l,
               fun l => c.data [0, b, l])).1 j =
            (lstmProjTrace ⟨[B, T, I], dd⟩ h0 c0 w_ih w_hh b_ih b_hh w_hr I H P b (k + 1)).1 j) ∧
          (j < H →
            (lstmProjSpecStep I H P (fun r l => w_ih.data [r, l]) (fun r l => w_hh.data [r, l])
              (fun r => b_ih.data [r]) (fun r => b_hh.data [r]) (fun r l => w_hr.data [r, l])
              (fun i => (⟨[B, T, I], dd⟩ : Tensor).data [b, k, i])
              (fun l => (lstmProjTrace ⟨[B, T, I], dd⟩ h0 c0 w_ih w_hh b_ih b_hh w_hr
                I H P b k).1 l,
               fun l => c.data [0, b, l])).2 j =
            (lstmProjTrace ⟨[B, T, I], dd⟩ h0 c0 w_ih w_hh b_ih b_hh w_hr I H P b (k + 1)).2 j) := by
        intro b hb
        have hcg := lstmProjSpecStep_congr_state I H P
          (fun r l => w_ih.data [r, l]) (fun r l => w_hh.data [r, l])
          (fun r => b_ih.data [r]) (fun r => b_hh.data [r]) (fun r l => w_hr.data [r, l])
          (fun i => (⟨[B, T, I], dd⟩ : Tensor).data [b, k, i])
          ((fun l => (lstmProjTrace ⟨[B, T, I], dd⟩ h0 c0 w_ih w_hh b_ih b_hh w_hr
              I H P b k).1 l),
           (fun l => c.data [0, b, l]))
          (lstmProjTrace ⟨[B, T, I], dd⟩ h0 c0 w_ih w_hh b_ih b_hh w_hr I H P b k)
          (fun l _ => rfl) (fun l hl => hcd b l hb hl)
        intro j
        constructor
        · intro hj
          rw [hcg.1 j hj]
          rfl
        · intro hj
          rw [hcg.2 j hj]
          rfl
      refine ⟨o', p', c', ?_, hos', Or.inr ⟨hps', ?_⟩, hcs', ?_, ?_⟩
      · rw [foldlM_opt_range_succ, hfold, Option.some_bind, hstep]
      · intro b j hb hj
        rw [hval b j hb hj, (hcongr b hb j).1 hj]
      · intro b u j hb hu hj
        rcases Nat.lt_succ_iff_lt_or_eq.mp hu with hu' | hu'
        · rw [hwrite b u j hb (by omega) hj, if_neg (by omega), hod b u j hb hu' hj]
        · subst hu'
          rw [hwrite b u j hb (by omega) hj, if_pos rfl, hval b j hb hj,
            (hcongr b hb j).1 hj]
      · intro b j hb hj
        rw [hcval b j hb hj, (hcongr b hb j).2 hj]
  obtain ⟨o, p, c, hfold, hos, hph, hcs, hod, hcd⟩ := main T le_rfl
  have hfin : ∃ pf, p.reshape [1, B, P] = some pf ∧ pf.shape = [1, B, P] ∧
      ∀ b j, b < B → j < P → pf.data [0, b, j] =
        (lstmProjTrace ⟨[B, T, I], dd⟩ h0 c0 w_ih w_hh b_ih b_hh w_hr I H P b T).1 j := by
    rcases hph with ⟨hs, hdat⟩ | ⟨hs, hdat⟩
    · obtain ⟨pf, h1, h2, h3⟩ := reshape_1nm_to_1nm hs
      exact ⟨pf, h1, h2, fun b j hb hj => by rw [h3 b j hb hj, hdat b j hb hj]⟩
    · obtain ⟨pf, h1, h2, h3⟩ := reshape_nm_to_1nm hs
      exact ⟨pf, h1, h2, fun b j hb hj => by rw [h3 b j hb hj, hdat b j hb hj]⟩
  obtain ⟨pf, hre, hpfs, hpfd⟩ := hfin
  refine ⟨o, pf, c, ?_, hos, hpfs, hcs, hod, hpfd, hcd⟩
  simp only [lstm_forward_proj, Option.bind_eq_bind, Option.pure_def]
  rw [hsize, hsizeP]
  rw [hbwi]
  simp only [Option.some_bind]
  rw [hbwh]
  simp only [Option.some_bind]
  rw [hbwr]
  simp only [Option.some_bind]
  rw [hfold]
  simp only [Option.some_bind]
  rw [hre]
  simp only [Option.some_bind]

/-! ### Failure of the forward passes at batch size 1, and the unbound
`p_size` failure of the generalized function -/

lemma ewise_1_1 (f : ℝ → ℝ → ℝ) {a b : Tensor} {n : ℕ}
    (ha : a.shape = [n]) (hb : b.shape = [n]) :
    ∃ c, ewise f a b = some c ∧ c.shape = [n] := by
  refine ⟨_, ewise_eq_some (by rw [ha, hb]; exact bshape_self [n]), rfl⟩

lemma lstm_b1_fail {T I H : ℕ} (hT : 1 ≤ T) (hH : 1 ≤ H)
    {dataT h0 c0 w_ih w_hh b_ih b_hh : Tensor}
    (hd : dataT.shape = [1, T, I])
    (hh0 : h0.shape = [1, 1, H]) (hc0 : c0.shape = [1, 1, H])
    (hwi : w_ih.shape = [4 * H, I]) (hwh : w_hh.shape = [4 * H, H])
    (hbi : b_ih.shape = [4 * H]) (hbh : b_hh.shape = [4 * H]) :
    lstm_forward dataT (h0, c0) w_ih w_hh b_ih b_hh = none := by
  obtain ⟨ds, dd⟩ := dataT
  simp only at hd
  subst hd
  have h41 : 4 * H ≠ 1 := by omega
  have hsize : w_ih.shape.headD 0 / 4 = H := by
    rw [hwi]
    show 4 * H / 4 = H
    omega
  obtain ⟨bwi, hbwi, hbwis, hbwid⟩ := tile_batch_eval hwi 1
  obtain ⟨bwh, hbwh, hbwhs, hbwhd⟩ := tile_batch_eval hwh 1
  obtain ⟨k, rfl⟩ : ∃ k, T = k + 1 := ⟨T - 1, by omega⟩
  have hstep0 : lstmStep ⟨[1, k + 1, I], dd⟩ b_ih b_hh bwi bwh 1 H
      (zerosT [1, k + 1, H], h0, c0) 0 = none := by
    obtain ⟨x, hx, hxs, hxd⟩ := sliceTime_eval (t := ⟨[1, k + 1, I], dd⟩) rfl 0
    have hxu : x.unsqueezeLast.shape = [1, I, 1] := by rw [unsqueezeLast_shape, hxs]; rfl
    obtain ⟨wx, hwx, hwxs, hwxd⟩ := bmm_eval hbwis hxu
    obtain ⟨phr, hphr, hphrs, hphrd⟩ := reshape_1nm_to_nm hh0
    have hpu : phr.unsqueezeLast.shape = [1, H, 1] := by rw [unsqueezeLast_shape, hphrs]; rfl
    obtain ⟨wh, hwh2, hwhs, hwhd2⟩ := bmm_eval hbwhs hpu
    obtain ⟨hsq1s, hsq1d⟩ := squeeze_1n1 hwxs h41
    obtain ⟨a1, ha1, ha1s⟩ := ewise_1_1 (· + ·) hsq1s hbi
    obtain ⟨hsq2s, hsq2d⟩ := squeeze_1n1 hwhs h41
    obtain ⟨a2, ha2, ha2s⟩ := ewise_1_1 (· + ·) ha1s hsq2s
    obtain ⟨ab, hab, habs⟩ := ewise_1_1 (· + ·) ha2s hbh
    show (Option.bind (sliceTime ⟨[1, k + 1, I], dd⟩ 0) fun x =>
      Option.bind (bmm bwi x.unsqueezeLast) fun w_times_x =>
      Option.bind (h0.reshape [1, H]) fun phx =>
      Option.bind (bmm bwh phx.unsqueezeLast) fun w_times_prev_h =>
      Option.bind (w_times_x.squeeze.add b_ih) fun s1 =>
      Option.bind (s1.add w_times_prev_h.squeeze) fun s2 =>
      Option.bind (s2.add b_hh) fun all_before =>
      Option.bind (sliceCols all_before 0 H) fun i0 =>
      Option.bind (sliceCols all_before H (2 * H)) fun f0 =>
      Option.bind (sliceCols all_before (2 * H) (3 * H)) fun g0 =>
      Option.bind (sliceColsFrom all_before (3 * H)) fun o0 =>
      Option.bind ((f0.map sigmoid).mul c0) fun y1 =>
      Option.bind ((i0.map sigmoid).mul (g0.map Real.tanh)) fun y2 =>
      Option.bind (y1.add y2) fun cv =>
      Option.bind ((o0.map sigmoid).mul (cv.map Real.tanh)) fun hv =>
      Option.bind (setTime (zerosT [1, k + 1, H]) 0 hv) fun outv =>
      some (outv, hv, cv)) = none
    rw [hx]
    rw [Option.some_bind]
    rw [hwx]
    rw [Option.some_bind]
    rw [hphr]
    rw [Option.some_bind]
    rw [hwh2]
    rw [Option.some_bind]
    rw [show wx.squeeze.add b_ih = ewise (· + ·) wx.squeeze b_ih from rfl]
    rw [ha1]
    rw [Option.some_bind]
    rw [show a1.add wh.squeeze = ewise (· + ·) a1 wh.squeeze from rfl]
    rw [ha2]
    rw [Option.some_bind]
    rw [show a2.add b_hh = ewise (· + ·) a2 b_hh from rfl]
    rw [hab]
    rw [Option.some_bind]
    rw [sliceCols_rank1 0 H habs]
    rfl
  show (Option.bind (tile3 w_ih.unsqueeze0 1 1 1) fun batch_w_ih =>
    Option.bind (tile3 w_hh.unsqueeze0 1 1 1) fun batch_w_hh =>
    Option.bind ((List.range (k + 1)).foldlM
      (lstmStep ⟨[1, k + 1, I], dd⟩ b_ih b_hh batch_w_ih batch_w_hh 1
        (w_ih.shape.headD 0 / 4))
      (zerosT [1, k + 1, w_ih.shape.headD 0 / 4], h0, c0)) fun r =>
    some (r.1, (r.2.1, r.2.2))) = none
  rw [hsize, hbwi, Option.some_bind, hbwh, Option.some_bind, List.range_succ_eq_map,
    List.foldlM_cons, hstep0]
  rfl

lemma gru_b1_fail {T I H : ℕ} (hT : 1 ≤ T) (hH : 1 ≤ H)
    {dataT h0 w_ih w_hh b_ih b_hh : Tensor}
    (hd : dataT.shape = [1, T, I]) (hh0 : h0.shape = [1, 1, H])
    (hwi : w_ih.shape = [3 * H, I]) (hwh : w_hh.shape = [3 * H, H])
    (hbi : b_ih.shape = [3 * H]) (hbh : b_hh.shape = [3 * H]) :
    gru_forward dataT h0 w_ih w_hh b_ih b_hh = none := by
  obtain ⟨ds, dd⟩ := dataT
  simp only at hd
  subst hd
  have h31 : 3 * H ≠ 1 := by omega
  have hsize : w_ih.shape.headD 0 / 3 = H := by
    rw [hwi]
    show 3 * H / 3 = H
    omega
  obtain ⟨bwi, hbwi, hbwis, hbwid⟩ := tile_batch_eval hwi 1
  obtain ⟨bwh, hbwh, hbwhs, hbwhd⟩ := tile_batch_eval hwh 1
  obtain ⟨k, rfl⟩ : ∃ k, T = k + 1 := ⟨T - 1, by omega⟩
  have hstep0 : gruStep ⟨[1, k + 1, I], dd⟩ b_ih b_hh bwi bwh 1 H
      (zerosT [1, k + 1, H], h0) 0 = none := by
    obtain ⟨x, hx, hxs, hxd⟩ := sliceTime_eval (t := ⟨[1, k + 1, I], dd⟩) rfl 0
    have hxu : x.unsqueezeLast.shape = [1, I, 1] := by rw [unsqueezeLast_shape, hxs]; rfl
    obtain ⟨wx, hwx, hwxs, hwxd⟩ := bmm_eval hbwis hxu
    obtain ⟨phr, hphr, hphrs, hphrd⟩ := reshape_1nm_to_nm hh0
    have hpu : phr.unsqueezeLast.shape = [1, H, 1] := by rw [unsqueezeLast_shape, hphrs]; rfl
    obtain ⟨wh, hwh2, hwhs, hwhd2⟩ := bmm_eval hbwhs hpu
    obtain ⟨hsq1s, hsq1d⟩ := squeeze_1n1 hwxs h31
    show (Option.bind (sliceTime ⟨[1, k + 1, I], dd⟩ 0) fun x =>
      Option.bind (bmm bwi x.unsqueezeLast) fun w_times_x =>
      Option.bind (h0.reshape [1, H]) fun phx =>
      Option.bind (bmm bwh phx.unsqueezeLast) fun w_times_prev_h =>
      Option.bind (sliceCols w_times_x.squeeze 0 (2 * H)) fun wxs =>
      Option.bind (sliceFst b_ih (2 * H)) fun bi1 =>
      Option.bind (sliceCols w_times_prev_h.squeeze 0 (2 * H)) fun whs =>
      Option.bind (sliceFst b_hh (2 * H)) fun bh1 =>
      Option.bind (wxs.add bi1) fun a1 =>
      Option.bind (a1.add whs) fun a2 =>
      Option.bind (a2.add bh1) fun r_z =>
      Option.bind (sliceCols r_z 0 H) fun rv =>
      Option.bind (sliceCols r_z H (2 * H)) fun zv =>
      Option.bind (sliceColsFrom w_times_x.squeeze (2 * H)) fun nx =>
      Option.bind (sliceFstFrom b_ih (2 * H)) fun bi2 =>
      Option.bind (sliceColsFrom w_times_prev_h.squeeze (2 * H)) fun nh =>
      Option.bind (sliceFstFrom b_hh (2 * H)) fun bh2 =>
      Option.bind (nx.add bi2) fun n1 =>
      Option.bind (nh.add bh2) fun n2 =>
      Option.bind ((rv.map sigmoid).mul n2) fun n3 =>
      Option.bind (n1.add n3) fun n4 =>
      Option.bind (((zv.map sigmoid).map (fun v => 1 - v)).mul (n4.map Real.tanh)) fun y1 =>
      Option.bind ((zv.map sigmoid).mul h0) fun y2 =>
      Option.bind (y1.add y2) fun hv =>
      Option.bind (setTime (zerosT [1, k + 1, H]) 0 hv) fun outv =>
      some (outv, hv)) = none
    rw [hx]
    rw [Option.some_bind]
    rw [hwx]
    rw [Option.some_bind]
    rw [hphr]
    rw [Option.some_bind]
    rw [hwh2]
    rw [Option.some_bind]
    rw [sliceCols_rank1 0 (2 * H) hsq1s]
    rfl
  show (Option.bind (tile3 w_ih.unsqueeze0 1 1 1) fun batch_w_ih =>
    Option.bind (tile3 w_hh.unsqueeze0 1 1 1) fun batch_w_hh =>
    Option.bind ((List.range (k + 1)).foldlM
      (gruStep ⟨[1, k + 1, I], dd⟩ b_ih b_hh batch_w_ih batch_w_hh 1
        (w_ih.shape.headD 0 / 3))
      (zerosT [1, k + 1, w_ih.shape.headD 0 / 3], h0)) fun r =>
    some (r.1, r.2)) = none
  rw [hsize, hbwi, Option.some_bind, hbwh, Option.some_bind, List.range_succ_eq_map,
    List.foldlM_cons, hstep0]
  rfl

lemma lstm_proj_none_fail {B T I H : ℕ} (hT : 1 ≤ T)
    {dataT h0 c0 w_ih w_hh b_ih b_hh : Tensor}
    (hd : dataT.shape = [B, T, I])
    (hwi : w_ih.shape = [4 * H, I]) (hwh : w_hh.shape = [4 * H, H]) :
    lstm_forward_proj dataT (h0, c0) w_ih w_hh b_ih b_hh none = none := by
  obtain ⟨ds, dd⟩ := dataT
  simp only at hd
  subst hd
  obtain ⟨bwi, hbwi, hbwis, hbwid⟩ := tile_batch_eval hwi B
  obtain ⟨bwh, hbwh, hbwhs, hbwhd⟩ := tile_batch_eval hwh B
  obtain ⟨k, rfl⟩ : ∃ k, T = k + 1 := ⟨T - 1, by omega⟩
  have hstep0 : lstmProjStep ⟨[B, k + 1, I], dd⟩ b_ih b_hh bwi bwh B
      (w_ih.shape.headD 0 / 4) none
      (zerosT [B, k + 1, w_ih.shape.headD 0 / 4], h0, c0) 0 = none := by
    obtain ⟨x, hx, hxs, hxd⟩ := sliceTime_eval (t := ⟨[B, k + 1, I], dd⟩) rfl 0
    have hxu : x.unsqueezeLast.shape = [B, I, 1] := by rw [unsqueezeLast_shape, hxs]; rfl
    obtain ⟨wx, hwx, hwxs, hwxd⟩ := bmm_eval hbwis hxu
    show (Option.bind (sliceTime ⟨[B, k + 1, I], dd⟩ 0) fun x =>
      Option.bind (bmm bwi x.unsqueezeLast) fun w_times_x =>
      Option.bind ((none : Option (ℕ × Tensor)).map Prod.fst) fun p_size =>
      Option.bind (h0.reshape [B, p_size]) fun phx => none) = none
    rw [hx]
    rw [Option.some_bind]
    rw [hwx]
    rw [Option.some_bind]
    rfl
  simp only [lstm_forward_proj, Option.bind_eq_bind, Option.pure_def, Option.map_none',
    Option.some_bind]
  rw [hbwi]
  simp only [Option.some_bind]
  rw [hbwh]
  simp only [Option.some_bind]
  rw [List.range_succ_eq_map, List.foldlM_cons, hstep0]
  rfl

/-! ### Empty time dimension: the loop body never runs -/

lemma lstm_t0 {B I H : ℕ} {dataT h0 c0 w_ih w_hh b_ih b_hh : Tensor}
    (hd : dataT.shape = [B, 0, I])
    (hwi : w_ih.shape = [4 * H, I]) (hwh : w_hh.shape = [4 * H, H]) :
    lstm_forward dataT (h0, c0) w_ih w_hh b_ih b_hh =
      some (zerosT [B, 0, H], (h0, c0)) := by
  obtain ⟨ds, dd⟩ := dataT
  simp only at hd
  subst hd
  have hsize : w_ih.shape.headD 0 / 4 = H := by
    rw [hwi]
    show 4 * H / 4 = H
    omega
  obtain ⟨bwi, hbwi, hbwis, hbwid⟩ := tile_batch_eval hwi B
  obtain ⟨bwh, hbwh, hbwhs, hbwhd⟩ := tile_batch_eval hwh B
  show (Option.bind (tile3 w_ih.unsqueeze0 B 1 1) fun batch_w_ih =>
    Option.bind (tile3 w_hh.unsqueeze0 B 1 1) fun batch_w_hh =>
    Option.bind ((List.range 0).foldlM
      (lstmStep ⟨[B, 0, I], dd⟩ b_ih b_hh batch_w_ih batch_w_hh B
        (w_ih.shape.headD 0 / 4))
      (zerosT [B, 0, w_ih.shape.headD 0 / 4], h0, c0)) fun r =>
    some (r.1, (r.2.1, r.2.2))) = some (zerosT [B, 0, H], (h0, c0))
  rw [hsize, hbwi, Option.some_bind, hbwh, Option.some_bind]
  rfl

lemma gru_t0 {B I H : ℕ} {dataT h0 w_ih w_hh b_ih b_hh : Tensor}
    (hd : dataT.shape = [B, 0, I])
    (hwi : w_ih.shape = [3 * H, I]) (hwh : w_hh.shape = [3 * H, H]) :
    gru_forward dataT h0 w_ih w_hh b_ih b_hh = some (zerosT [B, 0, H], h0) := by
  obtain ⟨ds, dd⟩ := dataT
  simp only at hd
  subst hd
  have hsize : w_ih.shape.headD 0 / 3 = H := by
    rw [hwi]
    show 3 * H / 3 = H
    omega
  obtain ⟨bwi, hbwi, hbwis, hbwid⟩ := tile_batch_eval hwi B
  obtain ⟨bwh, hbwh, hbwhs, hbwhd⟩ := tile_batch_eval hwh B
  show (Option.bind (tile3 w_ih.unsqueeze0 B 1 1) fun batch_w_ih =>
    Option.bind (tile3 w_hh.unsqueeze0 B 1 1) fun batch_w_hh =>
    Option.bind ((List.range 0).foldlM
      (gruStep ⟨[B, 0, I], dd⟩ b_ih b_hh batch_w_ih batch_w_hh B
        (w_ih.shape.headD 0 / 3))
      (zerosT [B, 0, w_ih.shape.headD 0 / 3], h0)) fun r =>
    some (r.1, r.2)) = some (zerosT [B, 0, H], h0)
  rw [hsize, hbwi, Option.some_bind, hbwh, Option.some_bind]
  rfl

/-! ### Spec-level helper facts -/

lemma sigmoid_zero : sigmoid 0 = 1 / 2 := by
  rw [sigmoid, neg_zero, Real.exp_zero]
  norm_num

/-- With all weights and biases zero and zero initial states, the LSTM
recurrence stays at zero: every sigmoid gate is 1/2 and every tanh is 0. -/
lemma lstmSpec_zero {I H : ℕ} {Wih Whh : ℕ → ℕ → ℝ} {bih bhh : ℕ → ℝ}
    {x : ℕ → ℕ → ℝ} {h0 c0 : ℕ → ℝ}
    (hW : ∀ r l, Wih r l = 0) (hV : ∀ r l, Whh r l = 0)
    (hbi : ∀ r, bih r = 0) (hbh : ∀ r, bhh r = 0)
    (hh0 : ∀ j, h0 j = 0) (hc0 : ∀ j, c0 j = 0) :
    ∀ t j, (lstmSpec I H Wih Whh bih bhh x h0 c0 t).1 j = 0 ∧
      (lstmSpec I H Wih Whh bih bhh x h0 c0 t).2 j = 0 := by
  intro t
  induction t with
  | zero => exact fun j => ⟨hh0 j, hc0 j⟩
  | succ t ih =>
    intro j
    have hz : ∀ r,
        ((∑ l ∈ Finset.range I, Wih r l * x t l) + bih r +
          (∑ l ∈ Finset.range H, Whh r l * (lstmSpec I H Wih Whh bih bhh x h0 c0 t).1 l) +
          bhh r) = 0 := by
      intro r
      rw [hbi r, hbh r]
      rw [Finset.sum_eq_zero fun l _ => by rw [hW r l, zero_mul]]
      rw [Finset.sum_eq_zero fun l _ => by rw [hV r l, zero_mul]]
      ring
    show (lstmSpecStep I H Wih Whh bih bhh (x t) _).1 j = 0 ∧
      (lstmSpecStep I H Wih Whh bih bhh (x t) _).2 j = 0
    simp only [lstmSpecStep, hz, (ih j).2, Real.tanh_zero]
    constructor
    · simp [Real.tanh_zero]
    · simp

/-- The projected LSTM recurrence with the identity projection matrix
agrees with the plain LSTM recurrence (P = H). -/
lemma proj_id_spec {I H : ℕ} (Wih Whh : ℕ → ℕ → ℝ) (bih bhh : ℕ → ℝ)
    (Whr : ℕ → ℕ → ℝ) (hid : ∀ p k, Whr p k = if p = k then 1 else 0)
    (x : ℕ → ℕ → ℝ) (h0 c0 : ℕ → ℝ) :
    ∀ t, (∀ j, j < H →
        (lstmProjSpec I H H Wih Whh bih bhh Whr x h0 c0 t).1 j =
          (lstmSpec I H Wih Whh bih bhh x h0 c0 t).1 j) ∧
      (∀ j, j < H →
        (lstmProjSpec I H H Wih Whh bih bhh Whr x h0 c0 t).2 j =
          (lstmSpec I H Wih Whh bih bhh x h0 c0 t).2 j) := by
  intro t
  induction t with
  | zero => exact ⟨fun j _ => rfl, fun j _ => rfl⟩
  | succ t ih =>
    obtain ⟨ih1, ih2⟩ := ih
    have hz : ∀ r,
        ((∑ l ∈ Finset.range I, Wih r l * x t l) + bih r +
          (∑ l ∈ Finset.range H,
            Whh r l * (lstmProjSpec I H H Wih Whh bih bhh Whr x h0 c0 t).1 l) + bhh r) =
        ((∑ l ∈ Finset.range I, Wih r l * x t l) + bih r +
          (∑ l ∈ Finset.range H,
            Whh r l * (lstmSpec I H Wih Whh bih bhh x h0 c0 t).1 l) + bhh r) := by
      intro r
      have hs : (∑ l ∈ Finset.range H,
          Whh r l * (lstmProjSpec I H H Wih Whh bih bhh Whr x h0 c0 t).1 l) =
          ∑ l ∈ Finset.range H, Whh r l * (lstmSpec I H Wih Whh bih bhh x h0 c0 t).1 l :=
        Finset.sum_congr rfl fun l hl => by rw [ih1 l (Finset.mem_range.mp hl)]
      rw [hs]
    constructor
    · intro j hj
      show (lstmProjSpecStep I H H Wih Whh bih bhh Whr (x t) _).1 j =
        (lstmSpecStep I H Wih Whh bih bhh (x t) _).1 j
      simp only [lstmProjSpecStep, lstmSpecStep, hz]
      rw [Finset.sum_eq_single j]
      · rw [hid j j, if_pos rfl, one_mul, ih2 j hj]
      · intro k _ hk
        rw [hid j k, if_neg (by omega), zero_mul]
      · intro hj2
        exact absurd (Finset.mem_range.mpr hj) hj2
    · intro j hj
      show (lstmProjSpecStep I H H Wih Whh bih bhh Whr (x t) _).2 j =
        (lstmSpecStep I H Wih Whh bih bhh (x t) _).2 j
      simp only [lstmProjSpecStep, lstmSpecStep, hz, ih2 j hj]

lemma tanh_pos {x : ℝ} (hx : 0 < x) : 0 < Real.tanh x := by
  rw [Real.tanh_eq_sinh_div_cosh]
  exact div_pos (Real.sinh_pos_iff.mpr hx) (Real.cosh_pos x)

/-! ### Claim theorems -/

/-- C1: for every input sequence `X` of shape (B,T,I) with the implicit
`B ≥ 2` precondition (see C9), initial states and parameters of the
documented shapes, `lstm_forward` computes at every time step the §4.1
recurrence: pre-activations `z_t = W_ih·x_t + b_ih + W_hh·h_{t-1} + b_hh`,
the four contiguous H-blocks activated in order as `i = sigmoid`,
`f = sigmoid`, `g = tanh`, `o = sigmoid`, then `c_t = f⊙c_{t-1} + i⊙g` and
`h_t = o⊙tanh c_t`, with `h_t` written to the output at time index `t` —
`lstmTrace` is by definition exactly this recurrence. -/
theorem C1_lstm_forward_recurrence {B T I H : ℕ} (hB : 2 ≤ B) (hH : 1 ≤ H)
    {dataT h0 c0 w_ih w_hh b_ih b_hh : Tensor}
    (hd : dataT.shape = [B, T, I])
    (hh0 : h0.shape = [1, B, H]) (hc0 : c0.shape = [1, B, H])
    (hwi : w_ih.shape = [4 * H, I]) (hwh : w_hh.shape = [4 * H, H])
    (hbi : b_ih.shape = [4 * H]) (hbh : b_hh.shape = [4 * H]) :
    ∃ out hT cT,
      lstm_forward dataT (h0, c0) w_ih w_hh b_ih b_hh = some (out, (hT, cT)) ∧
      out.shape = [B, T, H] ∧
      (∀ b u j, b < B → u < T → j < H →
        out.data [b, u, j] = (lstmTrace dataT h0 c0 w_ih w_hh b_ih b_hh I H b (u + 1)).1 j) ∧
      (∀ b j, b < B → j < H →
        hT.data [0, b, j] = (lstmTrace dataT h0 c0 w_ih w_hh b_ih b_hh I H b T).1 j ∧
        cT.data [0, b, j] = (lstmTrace dataT h0 c0 w_ih w_hh b_ih b_hh I H b T).2 j) := by
  obtain ⟨out, hT, cT, he, hos, _, _, hod, hfd⟩ := lstm_run hB hH hd hh0 hc0 hwi hwh hbi hbh
  exact ⟨out, hT, cT, he, hos, hod, hfd⟩

theorem C1_lstm_forward_recurrence_witness :
    2 ≤ 2 ∧ 1 ≤ 1 ∧
    (lstm_forward (zerosT [2, 1, 1]) (zerosT [1, 2, 1], zerosT [1, 2, 1])
      (zerosT [4, 1]) (zerosT [4, 1]) (zerosT [4]) (zerosT [4])).isSome = true := by
  refine ⟨le_refl 2, le_refl 1, ?_⟩
  obtain ⟨out, hT, cT, he, _⟩ :=
    @C1_lstm_forward_recurrence 2 1 1 1 (by norm_num) (by norm_num)
      (zerosT [2, 1, 1]) (zerosT [1, 2, 1]) (zerosT [1, 2, 1])
      (zerosT [4, 1]) (zerosT [4, 1]) (zerosT [4]) (zerosT [4])
      rfl rfl rfl rfl rfl rfl rfl
  rw [he]
  rfl

/-- C2: for every input `X` (B,T,I) with `B ≥ 2` (see C9), initial
`h0` (B×H) as in the §4.3 contract, and 3H-stacked parameters,
`gru_forward` computes at every step the §4.3 recurrence:
`r = sigmoid(p[0:H] + q[0:H])`, `z = sigmoid(p[H:2H] + q[H:2H])` with
`p = W_ih·x + b_ih`, `q = W_hh·h + b_hh`, the candidate
`n = tanh(p[2H:3H] + r ⊙ q[2H:3H])` with the reset gate applied inside the
tanh argument to the hidden-derived term (including its bias), and
`h_t = (1 − z) ⊙ n + z ⊙ h_{t-1}`, written to the output at time `t` —
`gruTrace` is by definition exactly this recurrence. -/
theorem C2_gru_forward_recurrence {B T I H : ℕ} (hB : 2 ≤ B) (hH : 1 ≤ H)
    {dataT h0 w_ih w_hh b_ih b_hh : Tensor}
    (hd : dataT.shape = [B, T, I]) (hh0 : h0.shape = [B, H])
    (hwi : w_ih.shape = [3 * H, I]) (hwh : w_hh.shape = [3 * H, H])
    (hbi : b_ih.shape = [3 * H]) (hbh : b_hh.shape = [3 * H]) :
    ∃ out hT,
      gru_forward dataT h0 w_ih w_hh b_ih b_hh = some (out, hT) ∧
      out.shape = [B, T, H] ∧
      (∀ b u j, b < B → u < T → j < H →
        out.data [b, u, j] = gruTrace dataT h0 w_ih w_hh b_ih b_hh I H b (u + 1) j) ∧
      (∀ b j, b < B → j < H →
        hT.data [b, j] = gruTrace dataT h0 w_ih w_hh b_ih b_hh I H b T j) := by
  obtain ⟨out, hT, he, hos, _, hod, hfd⟩ := gru_run hB hH hd hh0 hwi hwh hbi hbh
  exact ⟨out, hT, he, hos, hod, hfd⟩

theorem C2_gru_forward_recurrence_witness :
    2 ≤ 2 ∧ 1 ≤ 1 ∧
    (gru_forward (zerosT [2, 1, 1]) (zerosT [2, 1])
      (zerosT [3, 1]) (zerosT [3, 1]) (zerosT [3]) (zerosT [3])).isSome = true := by
  refine ⟨le_refl 2, le_refl 1, ?_⟩
  obtain ⟨out, hT, he, _⟩ :=
    @C2_gru_forward_recurrence 2 1 1 1 (by norm_num) (by norm_num)
      (zerosT [2, 1, 1]) (zerosT [2, 1])
      (zerosT [3, 1]) (zerosT [3, 1]) (zerosT [3]) (zerosT [3])
      rfl rfl rfl rfl rfl rfl
  rw [he]
  rfl

/-- C6: for every well-shaped input `X` (B×T×I, with the implicit `B ≥ 2`,
see C9), initial hidden state `h0` (B×H) and GRU parameters, `gru_forward`
produces an output of shape (B,T,H) and a final hidden state of shape
(B,H); its return type `Tensor × Tensor` carries no cell state. -/
theorem C6_gru_forward_shapes {B T I H : ℕ} (hB : 2 ≤ B) (hH : 1 ≤ H)
    {dataT h0 w_ih w_hh b_ih b_hh : Tensor}
    (hd : dataT.shape = [B, T, I]) (hh0 : h0.shape = [B, H])
    (hwi : w_ih.shape = [3 * H, I]) (hwh : w_hh.shape = [3 * H, H])
    (hbi : b_ih.shape = [3 * H]) (hbh : b_hh.shape = [3 * H]) :
    ∃ out hT,
      gru_forward dataT h0 w_ih w_hh b_ih b_hh = some (out, hT) ∧
      out.shape = [B, T, H] ∧ hT.shape = [B, H] := by
  obtain ⟨out, hT, he, hos, hts, _, _⟩ := gru_run hB hH hd hh0 hwi hwh hbi hbh
  exact ⟨out, hT, he, hos, hts⟩

theorem C6_gru_forward_shapes_witness :
    2 ≤ 2 ∧ 1 ≤ 1 ∧
    (gru_forward (zerosT [2, 3, 1]) (zerosT [2, 1])
      (zerosT [3, 1]) (zerosT [3, 1]) (zerosT [3]) (zerosT [3])).isSome = true := by
  refine ⟨le_refl 2, le_refl 1, ?_⟩
  obtain ⟨out, hT, he, _⟩ :=
    @C6_gru_forward_shapes 2 3 1 1 (by norm_num) (by norm_num)
      (zerosT [2, 3, 1]) (zerosT [2, 1])
      (zerosT [3, 1]) (zerosT [3, 1]) (zerosT [3]) (zerosT [3])
      rfl rfl rfl rfl rfl rfl
  rw [he]
  rfl

/-- C7: for every input and parameters meeting the shape preconditions
(`B ≥ 2`, see C9), with initial hidden and cell states supplied as
(1,B,H) tensors, the plain `lstm_forward` returns final `h_T` and `c_T`
both of shape (1,B,H), i.e. both carry the leading layer-count-of-1
axis. -/
theorem C7_lstm_forward_state_shapes {B T I H : ℕ} (hB : 2 ≤ B) (hH : 1 ≤ H)
    {dataT h0 c0 w_ih w_hh b_ih b_hh : Tensor}
    (hd : dataT.shape = [B, T, I])
    (hh0 : h0.shape = [1, B, H]) (hc0 : c0.shape = [1, B, H])
    (hwi : w_ih.shape = [4 * H, I]) (hwh : w_hh.shape = [4 * H, H])
    (hbi : b_ih.shape = [4 * H]) (hbh : b_hh.shape = [4 * H]) :
    ∃ out hT cT,
      lstm_forward dataT (h0, c0) w_ih w_hh b_ih b_hh = some (out, (hT, cT)) ∧
      hT.shape = [1, B, H] ∧ cT.shape = [1, B, H] := by
  obtain ⟨out, hT, cT, he, _, hts, hcs, _, _⟩ := lstm_run hB hH hd hh0 hc0 hwi hwh hbi hbh
  exact ⟨out, hT, cT, he, hts, hcs⟩

theorem C7_lstm_forward_state_shapes_witness :
    2 ≤ 2 ∧ 1 ≤ 1 ∧
    (lstm_forward (zerosT [2, 2, 1]) (zerosT [1, 2, 1], zerosT [1, 2, 1])
      (zerosT [4, 1]) (zerosT [4, 1]) (zerosT [4]) (zerosT [4])).isSome = true := by
  refine ⟨le_refl 2, le_refl 1, ?_⟩
  obtain ⟨out, hT, cT, he, _⟩ :=
    @C7_lstm_forward_state_shapes 2 2 1 1 (by norm_num) (by norm_num)
      (zerosT [2, 2, 1]) (zerosT [1, 2, 1]) (zerosT [1, 2, 1])
      (zerosT [4, 1]) (zerosT [4, 1]) (zerosT [4]) (zerosT [4])
      rfl rfl rfl rfl rfl rfl rfl
  rw [he]
  rfl

/-- C8: with all weights and biases zero (and zero initial states, as
"stays at 0" requires), every sigmoid gate evaluates to 1/2, every tanh
evaluates to 0, and the LSTM hidden and cell states stay at 0 for all t
regardless of the input. -/
theorem C8_lstm_zero_weights {B T I H : ℕ} (hB : 2 ≤ B) (hH : 1 ≤ H)
    {dataT h0 c0 w_ih w_hh b_ih b_hh : Tensor}
    (hd : dataT.shape = [B, T, I])
    (hh0 : h0.shape = [1, B, H]) (hc0 : c0.shape = [1, B, H])
    (hwi : w_ih.shape = [4 * H, I]) (hwh : w_hh.shape = [4 * H, H])
    (hbi : b_ih.shape = [4 * H]) (hbh : b_hh.shape = [4 * H])
    (hwz : ∀ r l, w_ih.data [r, l] = 0) (hvz : ∀ r l, w_hh.data [r, l] = 0)
    (hbz : ∀ r, b_ih.data [r] = 0) (hbz2 : ∀ r, b_hh.data [r] = 0)
    (hh0z : ∀ b j, h0.data [0, b, j] = 0) (hc0z : ∀ b j, c0.data [0, b, j] = 0) :
    sigmoid 0 = 1 / 2 ∧ Real.tanh 0 = 0 ∧
    ∃ out hT cT,
      lstm_forward dataT (h0, c0) w_ih w_hh b_ih b_hh = some (out, (hT, cT)) ∧
      (∀ b u j, b < B → u < T → j < H → out.data [b, u, j] = 0) ∧
      (∀ b j, b < B → j < H → hT.data [0, b, j] = 0 ∧ cT.data [0, b, j] = 0) := by
  refine ⟨sigmoid_zero, Real.tanh_zero, ?_⟩
  obtain ⟨out, hT, cT, he, _, _, _, hod, hfd⟩ := lstm_run hB hH hd hh0 hc0 hwi hwh hbi hbh
  have hz : ∀ b t j,
      (lstmTrace dataT h0 c0 w_ih w_hh b_ih b_hh I H b t).1 j = 0 ∧
      (lstmTrace dataT h0 c0 w_ih w_hh b_ih b_hh I H b t).2 j = 0 := by
    intro b t j
    exact lstmSpec_zero (fun r l => hwz r l) (fun r l => hvz r l) hbz hbz2
      (fun j => hh0z b j) (fun j => hc0z b j) t j
  refine ⟨out, hT, cT, he, ?_, ?_⟩
  · intro b u j hb hu hj
    rw [hod b u j hb hu hj, (hz b (u + 1) j).1]
  · intro b j hb hj
    rw [(hfd b j hb hj).1, (hfd b j hb hj).2]
    exact ⟨(hz b T j).1, (hz b T j).2⟩

theorem C8_lstm_zero_weights_witness :
    2 ≤ 2 ∧ 1 ≤ 1 ∧ sigmoid 0 = 1 / 2 ∧ Real.tanh 0 = 0 ∧
    (lstm_forward (zerosT [2, 1, 1]) (zerosT [1, 2, 1], zerosT [1, 2, 1])
      (zerosT [4, 1]) (zerosT [4, 1]) (zerosT [4]) (zerosT [4])).isSome = true := by
  obtain ⟨hs, ht, out, hT, cT, he, _⟩ :=
    @C8_lstm_zero_weights 2 1 1 1 (by norm_num) (by norm_num)
      (zerosT [2, 1, 1]) (zerosT [1, 2, 1]) (zerosT [1, 2, 1])
      (zerosT [4, 1]) (zerosT [4, 1]) (zerosT [4]) (zerosT [4])
      rfl rfl rfl rfl rfl rfl rfl
      (fun r l => rfl) (fun r l => rfl) (fun r => rfl) (fun r => rfl)
      (fun b j => rfl) (fun b j => rfl)
  refine ⟨le_refl 2, le_refl 1, hs, ht, ?_⟩
  rw [he]
  rfl

/-- C9: at batch size B = 1 with all other shape preconditions satisfied
and T ≥ 1, both `lstm_forward` and `gru_forward` fail (return `none`)
rather than producing a result: `squeeze()` collapses the batch dimension
of the batched matrix products, so the subsequent two-dimensional gate
slicing is applied to a one-dimensional tensor. -/
theorem C9_batch_one_fails {T I H T2 I2 H2 : ℕ} (hT : 1 ≤ T) (hH : 1 ≤ H)
    (hT2 : 1 ≤ T2) (hH2 : 1 ≤ H2)
    {dataT h0 c0 w_ih w_hh b_ih b_hh : Tensor}
    {dataG g0 v_ih v_hh a_ih a_hh : Tensor}
    (hd : dataT.shape = [1, T, I])
    (hh0 : h0.shape = [1, 1, H]) (hc0 : c0.shape = [1, 1, H])
    (hwi : w_ih.shape = [4 * H, I]) (hwh : w_hh.shape = [4 * H, H])
    (hbi : b_ih.shape = [4 * H]) (hbh : b_hh.shape = [4 * H])
    (hdg : dataG.shape = [1, T2, I2]) (hg0 : g0.shape = [1, 1, H2])
    (hvi : v_ih.shape = [3 * H2, I2]) (hvh : v_hh.shape = [3 * H2, H2])
    (hai : a_ih.shape = [3 * H2]) (hah : a_hh.shape = [3 * H2]) :
    lstm_forward dataT (h0, c0) w_ih w_hh b_ih b_hh = none ∧
    gru_forward dataG g0 v_ih v_hh a_ih a_hh = none :=
  ⟨lstm_b1_fail hT hH hd hh0 hc0 hwi hwh hbi hbh,
   gru_b1_fail hT2 hH2 hdg hg0 hvi hvh hai hah⟩

theorem C9_batch_one_fails_witness :
    1 ≤ 1 ∧
    (lstm_forward (zerosT [1, 1, 1]) (zerosT [1, 1, 1], zerosT [1, 1, 1])
      (zerosT [4, 1]) (zerosT [4, 1]) (zerosT [4]) (zerosT [4]) = none ∧
     gru_forward (zerosT [1, 1, 1]) (zerosT [1, 1, 1])
      (zerosT [3, 1]) (zerosT [3, 1]) (zerosT [3]) (zerosT [3]) = none) :=
  ⟨le_refl 1,
   @C9_batch_one_fails 1 1 1 1 1 1 (by norm_num) (by norm_num) (by norm_num) (by norm_num)
     (zerosT [1, 1, 1]) (zerosT [1, 1, 1]) (zerosT [1, 1, 1])
     (zerosT [4, 1]) (zerosT [4, 1]) (zerosT [4]) (zerosT [4])
     (zerosT [1, 1, 1]) (zerosT [1, 1, 1])
     (zerosT [3, 1]) (zerosT [3, 1]) (zerosT [3]) (zerosT [3])
     rfl rfl rfl rfl rfl rfl rfl rfl rfl rfl rfl rfl rfl⟩

/-- C10: with an empty time dimension (T = 0) and well-shaped weights,
plain `lstm_forward` and `gru_forward` return without error an output with
empty time dimension (B,0,H) and final state(s) exactly equal (as the very
same tensors) to the supplied initial state(s). -/
theorem C10_empty_time {B I H B2 I2 H2 : ℕ}
    {dataT h0 c0 w_ih w_hh b_ih b_hh : Tensor}
    {dataG g0 v_ih v_hh a_ih a_hh : Tensor}
    (hd : dataT.shape = [B, 0, I])
    (hwi : w_ih.shape = [4 * H, I]) (hwh : w_hh.shape = [4 * H, H])
    (hdg : dataG.shape = [B2, 0, I2])
    (hvi : v_ih.shape = [3 * H2, I2]) (hvh : v_hh.shape = [3 * H2, H2]) :
    lstm_forward dataT (h0, c0) w_ih w_hh b_ih b_hh =
      some (zerosT [B, 0, H], (h0, c0)) ∧
    gru_forward dataG g0 v_ih v_hh a_ih a_hh = some (zerosT [B2, 0, H2], g0) :=
  ⟨lstm_t0 hd hwi hwh, gru_t0 hdg hvi hvh⟩

theorem C10_empty_time_witness :
    (zerosT [2, 0, 1]).shape = [2, 0, 1] ∧
    (lstm_forward (zerosT [2, 0, 1]) (zerosT [1, 2, 1], zerosT [1, 2, 1])
      (zerosT [4, 1]) (zerosT [4, 1]) (zerosT [4]) (zerosT [4]) =
        some (zerosT [2, 0, 1], (zerosT [1, 2, 1], zerosT [1, 2, 1])) ∧
     gru_forward (zerosT [2, 0, 1]) (zerosT [2, 1])
      (zerosT [3, 1]) (zerosT [3, 1]) (zerosT [3]) (zerosT [3]) =
        some (zerosT [2, 0, 1], zerosT [2, 1])) :=
  ⟨rfl,
   @C10_empty_time 2 1 1 2 1 1
     (zerosT [2, 0, 1]) (zerosT [1, 2, 1]) (zerosT [1, 2, 1])
     (zerosT [4, 1]) (zerosT [4, 1]) (zerosT [4]) (zerosT [4])
     (zerosT [2, 0, 1]) (zerosT [2, 1])
     (zerosT [3, 1]) (zerosT [3, 1]) (zerosT [3]) (zerosT [3])
     rfl rfl rfl rfl rfl rfl⟩

/-! ### Concrete instances for the refinement counterexamples -/

/-- The n×n identity matrix as a tensor. -/
noncomputable def idT (n : ℕ) : Tensor :=
  ⟨[n, n], fun idx => if idx.headD 0 = idx.tail.headD 0 then 1 else 0⟩

noncomputable def dataC5 : Tensor := ⟨[2, 1, 1], fun _ => 0⟩

noncomputable def h0C5 : Tensor := ⟨[1, 2, 1], fun _ => 0⟩

noncomputable def c0C5 : Tensor := ⟨[1, 2, 1], fun _ => 0⟩

noncomputable def wihC5 : Tensor := ⟨[4, 1], fun _ => 0⟩

noncomputable def whhC5 : Tensor := ⟨[4, 1], fun _ => 0⟩

noncomputable def bC5 : Tensor := ⟨[4], fun _ => 0⟩

noncomputable def dataC4 : Tensor := ⟨[2, 2, 1], fun _ => 0⟩

noncomputable def h0C4 : Tensor := ⟨[1, 2, 2], fun _ => 0⟩

noncomputable def c0C4 : Tensor := ⟨[1, 2, 2], fun _ => 2⟩

noncomputable def wihC4 : Tensor := ⟨[8, 1], fun _ => 0⟩

noncomputable def whhC4 : Tensor := ⟨[8, 2], fun idx => if idx = [4, 0] then 1 else 0⟩

noncomputable def bC4 : Tensor := ⟨[8], fun _ => 0⟩

noncomputable def whrC4 : Tensor := ⟨[2, 2], fun _ => 0⟩

/-- C3: the claim that the projected `lstm_forward` with `W_hr = None`
behaves identically to the plain LSTM and does not fail is refuted by the
code: `p_size` is only assigned inside the `if w_hr is not None:` branch,
so with `W_hr` absent the first loop iteration reads an unbound name and
the call raises (modelled as `none`), for every well-shaped input with
T ≥ 1 — while the plain `lstm_forward` succeeds on the same arguments. -/
theorem C3_proj_none_diverges {B T I H : ℕ} (hT : 1 ≤ T) (hB : 2 ≤ B) (hH : 1 ≤ H)
    {dataT h0 c0 w_ih w_hh b_ih b_hh : Tensor}
    (hd : dataT.shape = [B, T, I])
    (hh0 : h0.shape = [1, B, H]) (hc0 : c0.shape = [1, B, H])
    (hwi : w_ih.shape = [4 * H, I]) (hwh : w_hh.shape = [4 * H, H])
    (hbi : b_ih.shape = [4 * H]) (hbh : b_hh.shape = [4 * H]) :
    lstm_forward_proj dataT (h0, c0) w_ih w_hh b_ih b_hh none = none ∧
    (lstm_forward dataT (h0, c0) w_ih w_hh b_ih b_hh).isSome = true := by
  refine ⟨lstm_proj_none_fail hT hd hwi hwh, ?_⟩
  obtain ⟨out, hT', cT, he, _⟩ := lstm_run hB hH hd hh0 hc0 hwi hwh hbi hbh
  rw [he]
  rfl

theorem C3_proj_none_diverges_witness :
    1 ≤ 1 ∧ 2 ≤ 2 ∧
    (lstm_forward_proj (zerosT [2, 1, 1]) (zerosT [1, 2, 1], zerosT [1, 2, 1])
        (zerosT [4, 1]) (zerosT [4, 1]) (zerosT [4]) (zerosT [4]) none = none ∧
      (lstm_forward (zerosT [2, 1, 1]) (zerosT [1, 2, 1], zerosT [1, 2, 1])
        (zerosT [4, 1]) (zerosT [4, 1]) (zerosT [4]) (zerosT [4])).isSome = true) :=
  ⟨le_refl 1, le_refl 2,
   @C3_proj_none_diverges 2 1 1 1 (by norm_num) (by norm_num) (by norm_num)
     (zerosT [2, 1, 1]) (zerosT [1, 2, 1]) (zerosT [1, 2, 1])
     (zerosT [4, 1]) (zerosT [4, 1]) (zerosT [4]) (zerosT [4])
     rfl rfl rfl rfl rfl rfl rfl⟩

/-- C4 counterexample: the value-independence part of the claim is false.
With B = 2, T = 2, I = 1, H = P = 2, zero input, c0 ≡ 2, W_ih = 0,
b_ih = b_hh = 0, W_hr = 0, and W_hh zero except entry (4,0) = 1 (an
output-gate row reading h), the plain LSTM and the projected LSTM (sharing
W_ih, W_hh, biases, input and c0) reach different final cell values at
[0,0,0]: the projection changes h_1, which feeds the output gate and hence
c-independent h_1, which the second step's forget/input gates consume —
plain gives 1/2 + 1/2·tanh(1/2·tanh 1), projected gives 1/2. -/
theorem C4_counterexample :
    (lstm_forward dataC4 (h0C4, c0C4) wihC4 whhC4 bC4 bC4).isSome = true ∧
    (lstm_forward_proj dataC4 (h0C4, c0C4) wihC4 whhC4 bC4 bC4 (some whrC4)).isSome = true ∧
    Option.map (fun r => r.2.2.data [0, 0, 0])
        (lstm_forward dataC4 (h0C4, c0C4) wihC4 whhC4 bC4 bC4) ≠
      Option.map (fun r => r.2.2.data [0, 0, 0])
        (lstm_forward_proj dataC4 (h0C4, c0C4) wihC4 whhC4 bC4 bC4 (some whrC4)) := by
  obtain ⟨out, hT, cT, he, _, _, _, _, hfd⟩ :=
    @lstm_run 2 2 1 2 (by norm_num) (by norm_num)
      dataC4 h0C4 c0C4 wihC4 whhC4 bC4 bC4 rfl rfl rfl rfl rfl rfl rfl
  obtain ⟨out2, hT2, cT2, he2, _, _, _, _, _, hcd2⟩ :=
    @lstm_proj_run 2 2 1 2 2 (by norm_num) (by norm_num) (by norm_num)
      dataC4 h0C4 c0C4 wihC4 whhC4 bC4 bC4 whrC4 rfl rfl rfl rfl rfl rfl rfl rfl
  have hv1 : cT.data [0, 0, 0] = 1 / 2 + 1 / 2 * Real.tanh (1 / 2 * Real.tanh 1) := by
    rw [(hfd 0 0 (by norm_num) (by norm_num)).2]
    norm_num [lstmTrace, lstmSpec, lstmSpecStep, dataC4, h0C4, c0C4, wihC4, whhC4, bC4,
      Finset.sum_range_succ, Finset.sum_range_zero, sigmoid_zero, Real.tanh_zero]
  have hv2 : cT2.data [0, 0, 0] = 1 / 2 := by
    rw [hcd2 0 0 (by norm_num) (by norm_num)]
    norm_num [lstmProjTrace, lstmProjSpec, lstmProjSpecStep, dataC4, h0C4, c0C4, wihC4,
      whhC4, bC4, whrC4, Finset.sum_range_succ, Finset.sum_range_zero, sigmoid_zero,
      Real.tanh_zero]
  refine ⟨by rw [he]; rfl, by rw [he2]; rfl, ?_⟩
  rw [he, he2]
  simp only [Option.map_some']
  rw [hv1, hv2]
  intro hcontra
  have heq := Option.some.inj hcontra
  have ht1 : 0 < Real.tanh 1 := tanh_pos one_pos
  have ht2 : 0 < Real.tanh (1 / 2 * Real.tanh 1) :=
    tanh_pos (mul_pos (by norm_num) ht1)
  linarith

/-- C4 (amended): in the projected LSTM the cell state is indeed never
projected: the final `h_T` has shape (1,B,P), the final `c_T` has shape
(1,B,H), and at every step the cell value is the one produced by the
H-dimensional recurrence `lstmProjSpec` (second component), so its
dimensionality is unaffected by the projection. The value-independence
part of the original claim is dropped (see the counterexample): the
projection changes `h_t`, which feeds the next step's gates and hence the
next cell values. -/
theorem C4_cell_state_frame {B T I H P : ℕ} (hB : 2 ≤ B) (hH : 2 ≤ H) (hP : 2 ≤ P)
    {dataT h0 c0 w_ih w_hh b_ih b_hh w_hr : Tensor}
    (hd : dataT.shape = [B, T, I])
    (hh0 : h0.shape = [1, B, P]) (hc0 : c0.shape = [1, B, H])
    (hwi : w_ih.shape = [4 * H, I]) (hwh : w_hh.shape = [4 * H, P])
    (hbi : b_ih.shape = [4 * H]) (hbh : b_hh.shape = [4 * H])
    (hwr : w_hr.shape = [P, H]) :
    ∃ out hT cT,
      lstm_forward_proj dataT (h0, c0) w_ih w_hh b_ih b_hh (some w_hr) =
        some (out, (hT, cT)) ∧
      hT.shape = [1, B, P] ∧ cT.shape = [1, B, H] ∧
      (∀ b j, b < B → j < H →
        cT.data [0, b, j] =
          (lstmProjTrace dataT h0 c0 w_ih w_hh b_ih b_hh w_hr I H P b T).2 j) := by
  obtain ⟨out, hT, cT, he, _, hts, hcs, _, _, hcd⟩ :=
    lstm_proj_run hB hH hP hd hh0 hc0 hwi hwh hbi hbh hwr
  exact ⟨out, hT, cT, he, hts, hcs, hcd⟩

theorem C4_cell_state_frame_witness :
    2 ≤ 2 ∧
    (lstm_forward_proj (zerosT [2, 1, 1]) (zerosT [1, 2, 2], zerosT [1, 2, 2])
      (zerosT [8, 1]) (zerosT [8, 2]) (zerosT [8]) (zerosT [8])
      (some (zerosT [2, 2]))).isSome = true := by
  refine ⟨le_refl 2, ?_⟩
  obtain ⟨out, hT, cT, he, _⟩ :=
    @C4_cell_state_frame 2 1 1 2 2 (by norm_num) (by norm_num) (by norm_num)
      (zerosT [2, 1, 1]) (zerosT [1, 2, 2]) (zerosT [1, 2, 2])
      (zerosT [8, 1]) (zerosT [8, 2]) (zerosT [8]) (zerosT [8]) (zerosT [2, 2])
      rfl rfl rfl rfl rfl rfl rfl rfl
  rw [he]
  rfl

/-- C5 counterexample: the claim fails at H = 1. With B = 2, T = 1,
I = H = 1 and all-zero weights and states, the plain `lstm_forward`
succeeds, but the projected `lstm_forward` with the 1×1 identity `W_hr`
fails: `prev_h.squeeze()` collapses the size-1 hidden dimension as well,
so the subsequent `torch.bmm` receives a rank-2 tensor and raises
(modelled as `none`). -/
theorem C5_counterexample :
    lstm_forward_proj dataC5 (h0C5, c0C5) wihC5 whhC5 bC5 bC5 (some (idT 1)) = none ∧
    (lstm_forward dataC5 (h0C5, c0C5) wihC5 whhC5 bC5 bC5).isSome = true := by
  refine ⟨rfl, ?_⟩
  obtain ⟨out, hT, cT, he, _⟩ :=
    @lstm_run 2 1 1 1 (by norm_num) (by norm_num)
      dataC5 h0C5 c0C5 wihC5 whhC5 bC5 bC5 rfl rfl rfl rfl rfl rfl rfl
  rw [he]
  rfl

/-- C5 (amended): for H ≥ 2 (and B ≥ 2, see C9 and the counterexample for
the H = 1 failure), the projected `lstm_forward` with `W_hr` the H×H
identity matrix produces the same output sequence and the same final
hidden and cell states, value for value, as the plain `lstm_forward` on
the same arguments. -/
theorem C5_identity_projection {B T I H : ℕ} (hB : 2 ≤ B) (hH : 2 ≤ H)
    {dataT h0 c0 w_ih w_hh b_ih b_hh : Tensor}
    (hd : dataT.shape = [B, T, I])
    (hh0 : h0.shape = [1, B, H]) (hc0 : c0.shape = [1, B, H])
    (hwi : w_ih.shape = [4 * H, I]) (hwh : w_hh.shape = [4 * H, H])
    (hbi : b_ih.shape = [4 * H]) (hbh : b_hh.shape = [4 * H]) :
    ∃ out hT cT out2 hT2 cT2,
      lstm_forward dataT (h0, c0) w_ih w_hh b_ih b_hh = some (out, (hT, cT)) ∧
      lstm_forward_proj dataT (h0, c0) w_ih w_hh b_ih b_hh (some (idT H)) =
        some (out2, (hT2, cT2)) ∧
      out.shape = [B, T, H] ∧ out2.shape = [B, T, H] ∧
      hT2.shape = hT.shape ∧ cT2.shape = cT.shape ∧
      (∀ b u j, b < B → u < T → j < H → out2.data [b, u, j] = out.data [b, u, j]) ∧
      (∀ b j, b < B → j < H →
        hT2.data [0, b, j] = hT.data [0, b, j] ∧
        cT2.data [0, b, j] = cT.data [0, b, j]) := by
  have hpe : ∀ b t,
      (∀ j, j < H →
        (lstmProjTrace dataT h0 c0 w_ih w_hh b_ih b_hh (idT H) I H H b t).1 j =
          (lstmTrace dataT h0 c0 w_ih w_hh b_ih b_hh I H b t).1 j) ∧
      (∀ j, j < H →
        (lstmProjTrace dataT h0 c0 w_ih w_hh b_ih b_hh (idT H) I H H b t).2 j =
          (lstmTrace dataT h0 c0 w_ih w_hh b_ih b_hh I H b t).2 j) := by
    intro b t
    simp only [lstmProjTrace, lstmTrace]
    exact proj_id_spec (fun r j => w_ih.data [r, j]) (fun r j => w_hh.data [r, j])
      (fun r => b_ih.data [r]) (fun r => b_hh.data [r])
      (fun p k => (idT H).data [p, k]) (fun p k => rfl)
      (fun t i => dataT.data [b, t, i]) (fun j => h0.data [0, b, j])
      (fun j => c0.data [0, b, j]) t
  obtain ⟨out, hT, cT, he, hos, hts, hcs, hod, hfd⟩ :=
    lstm_run hB (le_trans one_le_two hH) hd hh0 hc0 hwi hwh hbi hbh
  obtain ⟨out2, hT2, cT2, he2, hos2, hts2, hcs2, hod2, hhd2, hcd2⟩ :=
    @lstm_proj_run B T I H H hB hH hH dataT h0 c0 w_ih w_hh b_ih b_hh (idT H)
      hd hh0 hc0 hwi hwh hbi hbh rfl
  refine ⟨out, hT, cT, out2, hT2, cT2, he, he2, hos, hos2,
    by rw [hts2, hts], by rw [hcs2, hcs], ?_, ?_⟩
  · intro b u j hb hu hj
    rw [hod b u j hb hu hj, hod2 b u j hb hu hj]
    exact (hpe b (u + 1)).1 j hj
  · intro b j hb hj
    constructor
    · rw [(hfd b j hb hj).1, hhd2 b j hb hj]
      exact (hpe b T).1 j hj
    · rw [(hfd b j hb hj).2, hcd2 b j hb hj]
      exact (hpe b T).2 j hj

theorem C5_identity_projection_witness :
    2 ≤ 2 ∧
    ((lstm_forward (zerosT [2, 1, 1]) (zerosT [1, 2, 2], zerosT [1, 2, 2])
        (zerosT [8, 1]) (zerosT [8, 2]) (zerosT [8]) (zerosT [8])).isSome = true ∧
      (lstm_forward_proj (zerosT [2, 1, 1]) (zerosT [1, 2, 2], zerosT [1, 2, 2])
        (zerosT [8, 1]) (zerosT [8, 2]) (zerosT [8]) (zerosT [8])
        (some (idT 2))).isSome = true) := by
  refine ⟨le_refl 2, ?_⟩
  obtain ⟨out, hT, cT, out2, hT2, cT2, he, he2, _⟩ :=
    @C5_identity_projection 2 1 1 2 (by norm_num) (by norm_num)
      (zerosT [2, 1, 1]) (zerosT [1, 2, 2]) (zerosT [1, 2, 2])
      (zerosT [8, 1]) (zerosT [8, 2]) (zerosT [8]) (zerosT [8])
      rfl rfl rfl rfl rfl rfl rfl
  rw [he, he2]
  exact ⟨rfl, rfl⟩
